import Mathlib

/-!
# SD card SPI driver (`Core/Src/sd_card_task.c`)

A shallow embedding of the block driver of the RTOS CLI device.  The HAL
(SPI peripheral, chip-select pin, DMA) is the environment: it is a record of
transition functions over an arbitrary device state `σ`.  Every HAL call made
by the driver is appended to a chronological trace, so that statements about
what was put on the wire, and in which order, are statements about that trace.

Bytes are natural numbers reduced `% 256`; the 32-bit argument is reduced
`% 2 ^ 32`.  The three loops of the source that have no bound (the op-condition
loop of `SD_Init`, the wait for the SPI peripheral after a DMA start, the busy
wait of `SD_WriteBlock`) take a fuel argument; a run that uses up its fuel
reports `none` together with everything that happened so far.
-/

namespace SdCard

/-! ## Constants of `sd_card_task.c` and `sd_card_task.h` -/

def SD_DUMMY_BYTE : Nat := 0xFF
def SD_START_BLOCK_TOKEN : Nat := 0xFE
def SD_CMD_LENGTH : Nat := 6
def SD_INIT_CLOCK_CYCLES : Nat := 10
def SD_BLOCK_SIZE : Nat := 512
def SD_CMD_RESPONSE_ATTEMPTS : Nat := 10
def SD_DATA_TOKEN_WAIT : Nat := 100000
def SD_CRC_DUMMY_BYTE : Nat := 0xFF
def SD_IDLE_STATE : Nat := 0x01
def SD_READY_STATE : Nat := 0x00
def SD_CMD8_CHECK_PATTERN : Nat := 0x1AA
def SD_CMD0_CRC : Nat := 0x95
def SD_CMD8_CRC : Nat := 0x87
def SD_APP_CMD_INDICATOR : Nat := 0x01
def SD_HC_CAPABILITY_FLAG : Nat := 0x40000000
def SD_DATA_ACCEPTED_TOKEN : Nat := 0x05

def CMD0 : Nat := 0x40
def CMD8 : Nat := 0x48
def CMD17 : Nat := 0x51
def CMD24 : Nat := 0x58
def CMD55 : Nat := 0x77
def CMD58 : Nat := 0x7A
def ACMD41 : Nat := 0x69

/-- The enumeration `sdcard_status_t` of the header. -/
inductive sdcard_status_t
  | SDCARD_OK
  | SDCARD_ERROR
  | SDCARD_TIMEOUT
  | SDCARD_BUSY
  | SDCARD_NO_RESPONSE
deriving DecidableEq, Repr

open sdcard_status_t

/-- Level written to the chip-select pin; `GPIO_PIN_RESET` selects the card. -/
inductive GPIO_PinState
  | GPIO_PIN_RESET
  | GPIO_PIN_SET
deriving DecidableEq, Repr

open GPIO_PinState

/-! ## The HAL as environment -/

/-- One HAL call as seen from the driver.  `tx` is a transmit-only call
(`HAL_SPI_Transmit`), `rx b` is a one-byte `HAL_SPI_TransmitReceive` that
clocked out the filler and read `b`, `rxDMA`/`txDMA` are the DMA starts with
their HAL status, `state` is one `HAL_SPI_GetState` poll. -/
inductive Event
  | cs (level : GPIO_PinState)
  | tx (bytes : List Nat)
  | rx (byte : Nat)
  | rxDMA (size : Nat) (ok : Bool)
  | txDMA (data : List Nat) (ok : Bool)
  | state (ready : Bool)
deriving DecidableEq, Repr

/-- The HAL entry points the driver uses, over a device state `σ`.
`receiveDMA`/`transmitDMA` answer whether the start returned `HAL_OK`;
`getState` answers whether the peripheral is `HAL_SPI_STATE_READY`;
`buffer` is the memory the receive DMA writes to. -/
structure Bus (σ : Type) where
  writePin : GPIO_PinState → σ → σ
  transmit : List Nat → σ → σ
  transmitReceive : Nat → σ → Nat × σ
  receiveDMA : Nat → σ → Bool × σ
  transmitDMA : List Nat → σ → Bool × σ
  getState : σ → Bool × σ
  buffer : σ → List Nat

/-- Device state together with the chronological trace of HAL calls. -/
structure World (σ : Type) where
  dev : σ
  trace : List Event

variable {σ : Type}

/-- `HAL_GPIO_WritePin` on the chip-select pin. -/
def HAL_GPIO_WritePin (bus : Bus σ) (level : GPIO_PinState) (w : World σ) : World σ :=
  ⟨bus.writePin level w.dev, w.trace ++ [Event.cs level]⟩

/-- `HAL_SPI_Transmit` of the bytes `pData`; its status is ignored by the driver. -/
def HAL_SPI_Transmit (bus : Bus σ) (pData : List Nat) (w : World σ) : World σ :=
  ⟨bus.transmit pData w.dev, w.trace ++ [Event.tx pData]⟩

/-- `HAL_SPI_Receive_DMA` of `size` bytes; the result says whether it returned `HAL_OK`. -/
def HAL_SPI_Receive_DMA (bus : Bus σ) (size : Nat) (w : World σ) : Bool × World σ :=
  let r := bus.receiveDMA size w.dev
  (r.1, ⟨r.2, w.trace ++ [Event.rxDMA size r.1]⟩)

/-- `HAL_SPI_Transmit_DMA` of the first `size` bytes at `pData`; the result says whether it
returned `HAL_OK`. -/
def HAL_SPI_Transmit_DMA (bus : Bus σ) (pData : List Nat) (size : Nat) (w : World σ) :
    Bool × World σ :=
  let r := bus.transmitDMA (pData.take size) w.dev
  (r.1, ⟨r.2, w.trace ++ [Event.txDMA (pData.take size) r.1]⟩)

/-- One call of `HAL_SPI_GetState`; the result says whether it is `HAL_SPI_STATE_READY`. -/
def HAL_SPI_GetState (bus : Bus σ) (w : World σ) : Bool × World σ :=
  let r := bus.getState w.dev
  (r.1, ⟨r.2, w.trace ++ [Event.state r.1]⟩)

/-! ## The driver -/

/-- `sd_cs_select` (lines 32-34). -/
def sd_cs_select (bus : Bus σ) (w : World σ) : World σ :=
  HAL_GPIO_WritePin bus GPIO_PIN_RESET w

/-- `sd_cs_deselect` (lines 36-38). -/
def sd_cs_deselect (bus : Bus σ) (w : World σ) : World σ :=
  HAL_GPIO_WritePin bus GPIO_PIN_SET w

/-- `SPI_SendByte` (lines 41-43). -/
def SPI_SendByte (bus : Bus σ) (data : Nat) (w : World σ) : World σ :=
  HAL_SPI_Transmit bus [data % 256] w

/-- `SPI_ReceiveByte` (lines 46-50): the filler goes out, the byte read comes back. -/
def SPI_ReceiveByte (bus : Bus σ) (w : World σ) : Nat × World σ :=
  let r := bus.transmitReceive SD_DUMMY_BYTE w.dev
  (r.1 % 256, ⟨r.2, w.trace ++ [Event.rx (r.1 % 256)]⟩)

/-- The response loop of `SD_SendCommand`: at most `n` receptions, the first
byte with bit 7 clear is returned, `0xFF` when there is none. -/
def pollResponse (bus : Bus σ) : Nat → World σ → Nat × World σ
  | 0, w => (0xFF, w)
  | n + 1, w =>
    let r := SPI_ReceiveByte bus w
    if r.1 &&& 0x80 = 0 then r else pollResponse bus n r.2

/-- The six bytes `buf[0..5]` built by `SD_SendCommand`. -/
def commandFrame (cmd arg crc : Nat) : List Nat :=
  [cmd % 256,
   ((arg % 2 ^ 32) >>> 24) % 256,
   ((arg % 2 ^ 32) >>> 16) % 256,
   ((arg % 2 ^ 32) >>> 8) % 256,
   ((arg % 2 ^ 32) >>> 0) % 256,
   crc % 256]

/-- `SD_SendCommand` (lines 53-76). -/
def SD_SendCommand (bus : Bus σ) (cmd arg crc : Nat) (w : World σ) : Nat × World σ :=
  let buf := commandFrame cmd arg crc
  let w1 := sd_cs_select bus w
  let w2 := SPI_SendByte bus SD_DUMMY_BYTE w1
  let w3 := HAL_SPI_Transmit bus (buf.take SD_CMD_LENGTH) w2
  pollResponse bus SD_CMD_RESPONSE_ATTEMPTS w3

/-- The `for` loop of `SD_Init` that clocks out filler bytes. -/
def sendClocks (bus : Bus σ) : Nat → World σ → World σ
  | 0, w => w
  | n + 1, w => sendClocks bus n (SPI_SendByte bus SD_DUMMY_BYTE w)

/-- The `do … while (response != SD_READY_STATE)` loop of `SD_Init`; `fuel`
bounds the number of times the body runs, `false` reports that it ran out. -/
def opCondLoop (bus : Bus σ) : Nat → World σ → Bool × World σ
  | 0, w => (false, w)
  | fuel + 1, w =>
    let w1 := (SD_SendCommand bus CMD55 0 SD_APP_CMD_INDICATOR w).2
    let r := SD_SendCommand bus ACMD41 SD_HC_CAPABILITY_FLAG SD_APP_CMD_INDICATOR w1
    if r.1 ≠ SD_READY_STATE then opCondLoop bus fuel r.2 else (true, r.2)

/-- `SD_Init` (lines 78-106).  The error returns leave chip-select as it is. -/
def SD_Init (bus : Bus σ) (fuel : Nat) (w : World σ) : Option sdcard_status_t × World σ :=
  let w1 := sd_cs_deselect bus w
  let w2 := sendClocks bus SD_INIT_CLOCK_CYCLES w1
  let r0 := SD_SendCommand bus CMD0 0 SD_CMD0_CRC w2
  if r0.1 ≠ SD_IDLE_STATE then (some SDCARD_ERROR, r0.2)
  else
    let r8 := SD_SendCommand bus CMD8 SD_CMD8_CHECK_PATTERN SD_CMD8_CRC r0.2
    if r8.1 ≠ SD_IDLE_STATE then (some SDCARD_ERROR, r8.2)
    else
      match opCondLoop bus fuel r8.2 with
      | (false, w3) => (none, w3)
      | (true, w3) =>
        let r58 := SD_SendCommand bus CMD58 0 SD_APP_CMD_INDICATOR w3
        if r58.1 ≠ SD_READY_STATE then (some SDCARD_ERROR, r58.2)
        else
          let w4 := sd_cs_deselect bus r58.2
          let w5 := SPI_SendByte bus SD_DUMMY_BYTE w4
          (some SDCARD_OK, w5)

/-- The token loop of `SD_ReadBlock`: at most `n` receptions, left at the
first byte equal to the start-block token or when `n` is used up. -/
def waitToken (bus : Bus σ) : Nat → World σ → World σ
  | 0, w => w
  | n + 1, w =>
    let r := SPI_ReceiveByte bus w
    if r.1 = SD_START_BLOCK_TOKEN then r.2 else waitToken bus n r.2

/-- The loop `while (HAL_SPI_GetState(&hspi1) != HAL_SPI_STATE_READY);`. -/
def waitReady (bus : Bus σ) : Nat → World σ → Bool × World σ
  | 0, w => (false, w)
  | fuel + 1, w =>
    let r := HAL_SPI_GetState bus w
    if r.1 then (true, r.2) else waitReady bus fuel r.2

/-- `SD_ReadBlock` (lines 108-134).  The buffer is the memory `bus.buffer` of the final
device state. -/
def SD_ReadBlock (bus : Bus σ) (fuel : Nat) (blockAddr : Nat) (w : World σ) :
    Option sdcard_status_t × World σ :=
  let r := SD_SendCommand bus CMD17 blockAddr SD_APP_CMD_INDICATOR w
  if r.1 ≠ SD_READY_STATE then (some SDCARD_ERROR, sd_cs_deselect bus r.2)
  else
    let w1 := waitToken bus SD_DATA_TOKEN_WAIT r.2
    let d := HAL_SPI_Receive_DMA bus SD_BLOCK_SIZE w1
    if d.1 = false then (some SDCARD_ERROR, sd_cs_deselect bus d.2)
    else
      match waitReady bus fuel d.2 with
      | (false, w2) => (none, w2)
      | (true, w2) =>
        let w3 := (SPI_ReceiveByte bus w2).2
        let w4 := sd_cs_deselect bus w3
        let w5 := SPI_SendByte bus SD_DUMMY_BYTE w4
        (some SDCARD_OK, w5)

/-- The loop `while (SPI_ReceiveByte() == 0x00);` of `SD_WriteBlock`. -/
def busyWait (bus : Bus σ) : Nat → World σ → Bool × World σ
  | 0, w => (false, w)
  | fuel + 1, w =>
    let r := SPI_ReceiveByte bus w
    if r.1 = 0x00 then busyWait bus fuel r.2 else (true, r.2)

/-- `SD_WriteBlock` (lines 136-171). -/
def SD_WriteBlock (bus : Bus σ) (fuel : Nat) (blockAddr : Nat) (buffer : List Nat)
    (w : World σ) : Option sdcard_status_t × World σ :=
  let r := SD_SendCommand bus CMD24 blockAddr SD_APP_CMD_INDICATOR w
  if r.1 ≠ SD_READY_STATE then (some SDCARD_ERROR, sd_cs_deselect bus r.2)
  else
    let w1 := SPI_SendByte bus SD_START_BLOCK_TOKEN r.2
    let d := HAL_SPI_Transmit_DMA bus buffer SD_BLOCK_SIZE w1
    if d.1 = false then (some SDCARD_ERROR, sd_cs_deselect bus d.2)
    else
      match waitReady bus fuel d.2 with
      | (false, w2) => (none, w2)
      | (true, w2) =>
        let w3 := SPI_SendByte bus SD_CRC_DUMMY_BYTE w2
        let w4 := SPI_SendByte bus SD_CRC_DUMMY_BYTE w3
        let r2 := SPI_ReceiveByte bus w4
        if r2.1 &&& 0x1F ≠ SD_DATA_ACCEPTED_TOKEN then
          (some SDCARD_ERROR, sd_cs_deselect bus r2.2)
        else
          match busyWait bus fuel r2.2 with
          | (false, w5) => (none, w5)
          | (true, w5) =>
            let w6 := sd_cs_deselect bus w5
            let w7 := SPI_SendByte bus SD_DUMMY_BYTE w6
            (some SDCARD_OK, w7)

/-! ## Vocabulary for stating properties of runs -/

/-- The world right after `SD_SendCommand` has transmitted its frame and
before it receives the first response byte. -/
def afterFrame (bus : Bus σ) (cmd arg crc : Nat) (w : World σ) : World σ :=
  HAL_SPI_Transmit bus ((commandFrame cmd arg crc).take SD_CMD_LENGTH)
    (SPI_SendByte bus SD_DUMMY_BYTE (sd_cs_select bus w))

/-- The bytes that `n` successive calls of `SPI_ReceiveByte` yield from `w`,
and the world they leave. -/
def receiveMany (bus : Bus σ) : Nat → World σ → List Nat × World σ
  | 0, w => ([], w)
  | n + 1, w =>
    let r := SPI_ReceiveByte bus w
    let rest := receiveMany bus n r.2
    (r.1 :: rest.1, rest.2)

/-- The command frames of a trace: its transmit calls of six bytes. -/
def framesOf : List Event → List (List Nat)
  | [] => []
  | Event.tx bytes :: es => if bytes.length = 6 then bytes :: framesOf es else framesOf es
  | _ :: es => framesOf es

/-- The opcode bytes of the command frames of a trace. -/
def opcodesOf (es : List Event) : List Nat :=
  (framesOf es).map (fun f => f.headD 0)

/-- The bytes handed to transmit-only calls (`HAL_SPI_Transmit`,
`HAL_SPI_Transmit_DMA`) in a trace, in order. -/
def txBytes : List Event → List Nat
  | [] => []
  | Event.tx bytes :: es => bytes ++ txBytes es
  | Event.txDMA data _ :: es => data ++ txBytes es
  | _ :: es => txBytes es

/-- The bytes received in a trace, in order. -/
def rxBytes : List Event → List Nat
  | [] => []
  | Event.rx b :: es => b :: rxBytes es
  | _ :: es => rxBytes es

/-- The events of one `SD_SendCommand` call that sent `frame` and then
received the bytes `rxs`. -/
def commandEvents (frame rxs : List Nat) : List Event :=
  [Event.cs GPIO_PIN_RESET, Event.tx [0xFF], Event.tx frame] ++ rxs.map Event.rx

/-- The events of a sequence of passes through the op-condition loop body;
each pass is given by the bytes received for `CMD55` and for `ACMD41`. -/
def opCondEvents : List (List Nat × List Nat) → List Event
  | [] => []
  | it :: rest =>
    commandEvents (commandFrame CMD55 0 SD_APP_CMD_INDICATOR) it.1 ++
      commandEvents (commandFrame ACMD41 SD_HC_CAPABILITY_FLAG SD_APP_CMD_INDICATOR) it.2 ++
      opCondEvents rest

/-- The events of a complete successful initialization: power-up clocks,
`CMD0`, `CMD8`, the passes `its` of the loop that did not end it, the last
pass (whose `ACMD41` status is the final `0x00` after the bytes `p41`),
`CMD58`, chip-select release and the trailing filler. -/
def initEvents (r0 r8 : List Nat) (its : List (List Nat × List Nat))
    (r55 p41 r58 : List Nat) : List Event :=
  [Event.cs GPIO_PIN_SET] ++ List.replicate 10 (Event.tx [0xFF]) ++
    commandEvents (commandFrame CMD0 0 SD_CMD0_CRC) r0 ++
    commandEvents (commandFrame CMD8 SD_CMD8_CHECK_PATTERN SD_CMD8_CRC) r8 ++
    opCondEvents its ++
    commandEvents (commandFrame CMD55 0 SD_APP_CMD_INDICATOR) r55 ++
    commandEvents (commandFrame ACMD41 SD_HC_CAPABILITY_FLAG SD_APP_CMD_INDICATOR)
      (p41 ++ [0x00]) ++
    commandEvents (commandFrame CMD58 0 SD_APP_CMD_INDICATOR) r58 ++
    [Event.cs GPIO_PIN_SET, Event.tx [0xFF]]

/-- The events of a complete successful initialization up to, and without,
the `CMD58` frame. -/
def initEventsToOCR (r0 r8 : List Nat) (its : List (List Nat × List Nat))
    (r55 p41 : List Nat) : List Event :=
  [Event.cs GPIO_PIN_SET] ++ List.replicate 10 (Event.tx [0xFF]) ++
    commandEvents (commandFrame CMD0 0 SD_CMD0_CRC) r0 ++
    commandEvents (commandFrame CMD8 SD_CMD8_CHECK_PATTERN SD_CMD8_CRC) r8 ++
    opCondEvents its ++
    commandEvents (commandFrame CMD55 0 SD_APP_CMD_INDICATOR) r55 ++
    commandEvents (commandFrame ACMD41 SD_HC_CAPABILITY_FLAG SD_APP_CMD_INDICATOR)
      (p41 ++ [0x00]) ++
    [Event.cs GPIO_PIN_RESET, Event.tx [0xFF]]

/-- The opcodes of `k` passes through the op-condition loop body. -/
def opCondOpcodes : Nat → List Nat
  | 0 => []
  | k + 1 => 0x77 :: 0x69 :: opCondOpcodes k

/-- The opcode sequence reset, interface check, `k` (app-command,
op-condition) pairs, read-OCR. -/
def initOpcodes (k : Nat) : List Nat :=
  0x40 :: 0x48 :: (opCondOpcodes k ++ [0x7A])

/-- The event is the transmission of a command frame with opcode byte `op`. -/
def sendsOpcode (op : Nat) (e : Event) : Prop :=
  ∃ f : List Nat, e = Event.tx f ∧ f.length = 6 ∧ f.headD 0 = op

/-- Modelled from the spec: the source declares no card-state variable; these
are the states of the `CardState` lifecycle of section 3 of the specification. -/
inductive CardState
  | Uninitialized
  | Initializing
  | Ready
  | Reading
  | Writing
  | Faulted
deriving DecidableEq, Repr

/-- Modelled from the spec: the card state that `initialize()` leaves, read
off what `SD_Init` reports (section 4.4: the success path marks Ready, a failed
gate leaves Faulted); a run that has not returned is still Initializing. -/
def cardStateAfterInit : Option sdcard_status_t → CardState
  | some SDCARD_OK => CardState.Ready
  | some _ => CardState.Faulted
  | none => CardState.Initializing

/-- A scripted bus for concrete runs: the device state is the list of bytes
still to be returned by receptions (`0xFF` once it is empty); both DMA starts
succeed and the peripheral is always ready. -/
def scriptBus : Bus (List Nat) where
  writePin := fun _ s => s
  transmit := fun _ s => s
  transmitReceive := fun _ s => (s.headD 0xFF, s.tail)
  receiveDMA := fun _ s => (true, s)
  transmitDMA := fun _ s => (true, s)
  getState := fun s => (true, s)
  buffer := fun _ => []

/-! ## A card simulator with persistent storage

An SD card in SPI mode that has been initialized, together with the SPI
peripheral and its DMA, as one device behind the HAL entry points.  The card
is a byte-level state machine: it collects a six-byte command frame, answers
with a status byte after `ncr` filler bytes, and for the two block commands
goes through the data phase of the protocol.  Blocks are addressed by the
frame argument (block addressing). -/

/-- Latencies of the simulated card and peripheral: filler bytes before a
status byte, filler bytes before the start-block token, busy bytes after a
write, and `HAL_SPI_GetState` polls before a DMA transfer reports ready. -/
structure SimConfig where
  ncr : Nat
  tokenDelay : Nat
  busyLen : Nat
  dmaPolls : Nat

/-- Protocol phase of the simulated card. -/
inductive Phase
  | idle (cmd : List Nat)
  | respond (wait : Nat) (r1 : Nat) (next : Phase)
  | readWait (wait : Nat) (blk : Nat)
  | readData (out : List Nat)
  | writeWait (blk : Nat)
  | writeData (blk : Nat) (acc : List Nat)
  | writeResp
  | busy (wait : Nat)

/-- The simulated device: configuration, stored blocks, chip-select, card
phase, polls left until the peripheral is ready, and the memory last filled by
a receive DMA. -/
structure SimCard where
  cfg : SimConfig
  storage : Nat → List Nat
  selected : Bool
  phase : Phase
  pending : Nat
  rxBuffer : List Nat

/-- What the card does with a complete command frame: `CMD17` and `CMD24` are
accepted with status `0x00` and start a data phase on block `arg`; any other
command is answered as illegal. -/
def decodeCommand (cfg : SimConfig) (frame : List Nat) : Phase :=
  let arg := frame.getD 1 0 * 2 ^ 24 + frame.getD 2 0 * 2 ^ 16 + frame.getD 3 0 * 2 ^ 8 +
    frame.getD 4 0
  if frame.headD 0 = 0x51 then Phase.respond cfg.ncr 0x00 (Phase.readWait cfg.tokenDelay arg)
  else if frame.headD 0 = 0x58 then Phase.respond cfg.ncr 0x00 (Phase.writeWait arg)
  else Phase.respond cfg.ncr 0x04 (Phase.idle [])

/-- One byte exchanged with the selected card: the byte on MOSI goes in, the
byte on MISO comes out. -/
def cardStep (c : SimCard) (mosi : Nat) : Nat × SimCard :=
  match c.phase with
  | Phase.idle cmd =>
    if cmd = [] ∧ mosi &&& 0xC0 ≠ 0x40 then (0xFF, c)
    else if cmd.length < 5 then (0xFF, { c with phase := Phase.idle (cmd ++ [mosi]) })
    else (0xFF, { c with phase := decodeCommand c.cfg (cmd ++ [mosi]) })
  | Phase.respond 0 r1 next => (r1, { c with phase := next })
  | Phase.respond (n + 1) r1 next => (0xFF, { c with phase := Phase.respond n r1 next })
  | Phase.readWait 0 blk =>
    (0xFE, { c with phase := Phase.readData (c.storage blk ++ [0xFF, 0xFF]) })
  | Phase.readWait (n + 1) blk => (0xFF, { c with phase := Phase.readWait n blk })
  | Phase.readData [] => (0xFF, { c with phase := Phase.idle [] })
  | Phase.readData (b :: rest) =>
    (b, { c with phase := if rest = [] then Phase.idle [] else Phase.readData rest })
  | Phase.writeWait blk =>
    if mosi = 0xFE then (0xFF, { c with phase := Phase.writeData blk [] }) else (0xFF, c)
  | Phase.writeData blk acc =>
    if acc.length + 1 < 514 then (0xFF, { c with phase := Phase.writeData blk (acc ++ [mosi]) })
    else
      (0xFF, { c with phase := Phase.writeResp,
                      storage := Function.update c.storage blk (acc.take 512) })
  | Phase.writeResp => (0xE5, { c with phase := Phase.busy c.cfg.busyLen })
  | Phase.busy 0 => (0xFF, { c with phase := Phase.idle [] })
  | Phase.busy (n + 1) => (0x00, { c with phase := Phase.busy n })

/-- One byte time on the bus: the card takes part only while selected. -/
def simExchange (c : SimCard) (mosi : Nat) : Nat × SimCard :=
  if c.selected then cardStep c (mosi % 256) else (0xFF, c)

/-- Bytes clocked out to the card, the replies dropped. -/
def simFeed (c : SimCard) : List Nat → SimCard
  | [] => c
  | b :: bs => simFeed (simExchange c b).2 bs

/-- The replies to `n` filler bytes, and the card afterwards. -/
def simRead (c : SimCard) : Nat → List Nat × SimCard
  | 0 => ([], c)
  | n + 1 =>
    let r := simExchange c 0xFF
    let rest := simRead r.2 n
    (r.1 :: rest.1, rest.2)

/-- The simulated device behind the HAL entry points. -/
def simBus : Bus SimCard where
  writePin := fun level c => { c with selected := decide (level = GPIO_PIN_RESET) }
  transmit := fun bytes c => simFeed c bytes
  transmitReceive := fun b c => simExchange c b
  receiveDMA := fun n c =>
    (true, { (simRead c n).2 with rxBuffer := (simRead c n).1, pending := c.cfg.dmaPolls })
  transmitDMA := fun data c => (true, { simFeed c data with pending := c.cfg.dmaPolls })
  getState := fun c =>
    if c.pending = 0 then (true, c) else (false, { c with pending := c.pending - 1 })
  buffer := fun c => c.rxBuffer

/-- A world with an empty trace. -/
def World.start (s : σ) : World σ := ⟨s, []⟩

/-- One pass through the body of the op-condition loop of `SD_Init`: `CMD55`,
then `ACMD41`; the status of `ACMD41` and the world afterwards. -/
def opCondPass (bus : Bus σ) (w : World σ) : Nat × World σ :=
  SD_SendCommand bus ACMD41 SD_HC_CAPABILITY_FLAG SD_APP_CMD_INDICATOR
    (SD_SendCommand bus CMD55 0 SD_APP_CMD_INDICATOR w).2

/-- The world after `n` passes through the body of the op-condition loop. -/
def opCondWorld (bus : Bus σ) : Nat → World σ → World σ
  | 0, w => w
  | n + 1, w => opCondWorld bus n (opCondPass bus w).2

/-- Whether chip-select is asserted after the events `es`, when `start` says
whether it was asserted before them: the level last written to the pin decides,
`GPIO_PIN_RESET` asserts it. -/
def csAsserted (start : Bool) : List Event → Bool
  | [] => start
  | Event.cs level :: es => csAsserted (decide (level = GPIO_PIN_RESET)) es
  | _ :: es => csAsserted start es

end SdCard

/-!
# Command-line interface (`Core/Src/uart_cli.c`)

Characters are natural numbers below 256.  A C string is the list of its
characters; it ends at the end of the list or at the first `0` in it, and
reading the character at the end gives the terminating `0`.  The target is a
32-bit Cortex-M4: `long` and `size_t` are 32 bits wide.
-/

namespace UartCli

/-! ## Constants of `uart_cli.h` and of the compiler -/

def MAX_CMD_LEN : Nat := 100
def BACK_SPACE : Nat := 0x7F
def ENTER : Nat := 0x0D

/-- The compiler constant `__LONG_MAX__` for the 32-bit `long` of the target. -/
def LONG_MAX : Int := 2 ^ 31 - 1

/-- The least value of the 32-bit `long` of the target. -/
def LONG_MIN : Int := -(2 ^ 31)

/-- Width of `size_t` on the target, in bits. -/
def SIZE_BITS : Nat := 32

/-! ## C library functions used by `extract_number_from_string` -/

/-- `isdigit` of `<ctype.h>` in the C locale. -/
def isdigit (c : Nat) : Bool := decide (0x30 ≤ c) && decide (c ≤ 0x39)

/-- `isspace` of `<ctype.h>` in the C locale. -/
def isspace (c : Nat) : Bool := decide (c = 0x20) || (decide (0x09 ≤ c) && decide (c ≤ 0x0D))

/-- The value of a run of decimal digit characters, most significant first. -/
def digitsValue (ds : List Nat) : Nat :=
  ds.foldl (fun acc d => acc * 10 + (d - 0x30)) 0

/-- `strtol(nptr, &endptr, 10)` of `<stdlib.h>`: leading white space, an
optional sign, then the longest run of decimal digits; the value is clamped to
the range of `long`.  The result is the value and `endptr - nptr`; with no
digit nothing is consumed and the value is `0`. -/
def strtol (nptr : List Nat) : Int × Nat :=
  let ws := nptr.takeWhile isspace
  let afterWs := nptr.dropWhile isspace
  let neg := decide (afterWs.headD 0 = 0x2D)
  let signLen := if afterWs.headD 0 = 0x2D ∨ afterWs.headD 0 = 0x2B then 1 else 0
  let ds := (afterWs.drop signLen).takeWhile isdigit
  if ds = [] then (0, 0)
  else
    let v : Int := if neg then -(digitsValue ds : Int) else (digitsValue ds : Int)
    (max LONG_MIN (min LONG_MAX v), ws.length + signLen + ds.length)

/-! ## `extract_number_from_string` -/

/-- The `while` loop of `extract_number_from_string`: `rest` is the string from
`follower` on and `pos` is `follower - src_string`.  Each pass first advances
`follower` and then tests the character it now points to. -/
def extractLoop : List Nat → Nat → Nat → Int × Nat
  | [], _, length => (LONG_MAX, length)
  | c :: tl, pos, length =>
    if c = 0 then (LONG_MAX, length)
    else if isdigit (tl.headD 0) then ((strtol tl).1, pos + 1 + (strtol tl).2)
    else extractLoop tl (pos + 1) length

/-- `extract_number_from_string src_string length` (lines 192-210): the number
returned and the value of `*length` afterwards, given its value before. -/
def extract_number_from_string (src_string : List Nat) (length : Nat) : Int × Nat :=
  extractLoop src_string 0 length

/-- What the comment on the declaration says (line 52: "Extracts the first
integer found in `src_string`, returns it, and sets `length` to number of
characters consumed"): the value of the longest run of digits that starts at
the first digit character, and the number of characters up to the end of that
run; with no digit, `LONG_MAX` and `length` as it was. -/
def firstIntegerFound : List Nat → Nat → Nat → Int × Nat
  | [], _, length => (LONG_MAX, length)
  | c :: tl, pos, length =>
    if c = 0 then (LONG_MAX, length)
    else if isdigit c then
      ((digitsValue ((c :: tl).takeWhile isdigit) : Int),
        pos + ((c :: tl).takeWhile isdigit).length)
    else firstIntegerFound tl (pos + 1) length

/-! ## `get_command_input` -/

/-- State of the editor loop: the local `index`, the writes made to
`received_command` so far as (array index, character), and what was echoed. -/
structure EditorState where
  index : Nat
  writes : List (Nat × Nat)
  echo : List Nat
deriving DecidableEq, Repr

/-- The `switch` of `get_command_input` on one received character; `index` is
a `size_t`, so `index--` and `index++` wrap around at `2 ^ SIZE_BITS`. -/
def editorStep (received_char : Nat) (st : EditorState) : EditorState :=
  if received_char = BACK_SPACE then
    { index := (st.index + 2 ^ SIZE_BITS - 1) % 2 ^ SIZE_BITS,
      writes := st.writes ++ [(st.index, 0)],
      echo := st.echo ++ [BACK_SPACE] }
  else if received_char = ENTER then
    { index := st.index,
      writes := st.writes ++ [(st.index, 0)],
      echo := st.echo ++ [0x0D, 0x0A] }
  else
    { index := (st.index + 1) % 2 ^ SIZE_BITS,
      writes := st.writes ++ [(st.index, received_char)],
      echo := st.echo ++ [received_char] }

/-- The `do … while (received_char != ENTER)` loop over the characters the
queue delivers; with no character left the task stays blocked in
`xQueueReceive`. -/
def editorLoop : List Nat → EditorState → EditorState
  | [], st => st
  | c :: cs, st => if c = ENTER then editorStep c st else editorLoop cs (editorStep c st)

/-- `get_command_input` (lines 119-153) on the characters received: it prints
the prompt, starts with `index = 0` and runs the loop. -/
def get_command_input (received : List Nat) : EditorState :=
  editorLoop received { index := 0, writes := [], echo := [0x0D, 0x3E, 0x3E, 0x3E, 0x3E, 0x20] }

end UartCli

namespace SdCard

variable {σ : Type}

open sdcard_status_t GPIO_PinState

/-! ## Basic facts about the primitives -/

theorem and_ff_eq_mod (x : Nat) : x &&& 0xFF = x % 256 :=
  Nat.and_pow_two_sub_one_eq_mod x 8

theorem afterFrame_trace (bus : Bus σ) (cmd arg crc : Nat) (w : World σ) :
    (afterFrame bus cmd arg crc w).trace =
      w.trace ++
        [Event.cs GPIO_PIN_RESET, Event.tx [0xFF], Event.tx (commandFrame cmd arg crc)] := by
  simp [afterFrame, HAL_SPI_Transmit, SPI_SendByte, sd_cs_select, HAL_GPIO_WritePin,
    SD_DUMMY_BYTE, SD_CMD_LENGTH, commandFrame]

theorem SD_SendCommand_eq (bus : Bus σ) (cmd arg crc : Nat) (w : World σ) :
    SD_SendCommand bus cmd arg crc w =
      pollResponse bus SD_CMD_RESPONSE_ATTEMPTS (afterFrame bus cmd arg crc w) := rfl

theorem receiveMany_length (bus : Bus σ) (n : Nat) (w : World σ) :
    (receiveMany bus n w).1.length = n := by
  induction n generalizing w with
  | zero => rfl
  | succ n ih => simp [receiveMany, ih]

theorem receiveMany_trace (bus : Bus σ) (n : Nat) (w : World σ) :
    (receiveMany bus n w).2.trace = w.trace ++ (receiveMany bus n w).1.map Event.rx := by
  induction n generalizing w with
  | zero => simp [receiveMany]
  | succ n ih =>
    simp only [receiveMany, List.map_cons]
    rw [ih]
    simp [SPI_ReceiveByte]

theorem receiveMany_take (bus : Bus σ) (k n : Nat) (w : World σ) (h : k ≤ n) :
    (receiveMany bus k w).1 = (receiveMany bus n w).1.take k := by
  induction k generalizing n w with
  | zero => simp [receiveMany]
  | succ k ih =>
    cases n with
    | zero => omega
    | succ n => simp [receiveMany, ih n _ (Nat.le_of_succ_le_succ h)]

/-- The response loop stops at the first byte with bit 7 clear. -/
theorem pollResponse_found (bus : Bus σ) (n : Nat) (w : World σ) (pre post : List Nat) (b : Nat)
    (hs : (receiveMany bus n w).1 = pre ++ b :: post)
    (hpre : ∀ x ∈ pre, x &&& 0x80 ≠ 0) (hb : b &&& 0x80 = 0) :
    pollResponse bus n w = (b, (receiveMany bus (pre.length + 1) w).2) := by
  induction pre generalizing n w with
  | nil =>
    cases n with
    | zero => simp [receiveMany] at hs
    | succ n =>
      simp only [receiveMany, List.nil_append, List.cons.injEq] at hs
      simp [pollResponse, receiveMany, hs.1, hb]
      rw [← hs.1]
  | cons a pre ih =>
    cases n with
    | zero => simp [receiveMany] at hs
    | succ n =>
      simp only [receiveMany, List.cons_append, List.cons.injEq] at hs
      have ha : a &&& 0x80 ≠ 0 := hpre a (List.mem_cons_self _ _)
      have hrest := ih n (SPI_ReceiveByte bus w).2 hs.2
        (fun x hx => hpre x (List.mem_cons_of_mem _ hx))
      simp only [pollResponse, hs.1, List.length_cons]
      rw [if_neg ha, hrest]
      simp [receiveMany]

/-- The bytes received up to and including the one at which the response
loop stops. -/
theorem pollResponse_found_trace (bus : Bus σ) (n : Nat) (w : World σ) (pre post : List Nat)
    (b : Nat) (hs : (receiveMany bus n w).1 = pre ++ b :: post) :
    (receiveMany bus (pre.length + 1) w).2.trace = w.trace ++ (pre ++ [b]).map Event.rx := by
  have hlen : pre.length + 1 ≤ n := by
    have := receiveMany_length bus n w
    rw [hs] at this
    simp at this
    omega
  rw [receiveMany_trace, receiveMany_take bus (pre.length + 1) n w hlen, hs]
  simp [List.take_append_eq_append_take]

/-- The response loop runs to its bound when every byte has bit 7 set. -/
theorem pollResponse_timeout (bus : Bus σ) (n : Nat) (w : World σ)
    (h : ∀ x ∈ (receiveMany bus n w).1, x &&& 0x80 ≠ 0) :
    pollResponse bus n w = (0xFF, (receiveMany bus n w).2) := by
  induction n generalizing w with
  | zero => rfl
  | succ n ih =>
    simp only [receiveMany, List.mem_cons, forall_eq_or_imp] at h
    simp only [pollResponse, receiveMany]
    rw [if_neg h.1]
    exact ih _ h.2

/-- Either outcome of the response loop, read off the byte stream. -/
theorem pollResponse_cases (bus : Bus σ) (n : Nat) (w : World σ) :
    (∃ pre post b, (receiveMany bus n w).1 = pre ++ b :: post ∧
        (∀ x ∈ pre, x &&& 0x80 ≠ 0) ∧ b &&& 0x80 = 0 ∧ b < 256) ∨
      (∀ x ∈ (receiveMany bus n w).1, x &&& 0x80 ≠ 0) := by
  induction n generalizing w with
  | zero => right; simp [receiveMany]
  | succ n ih =>
    by_cases h0 : (SPI_ReceiveByte bus w).1 &&& 0x80 = 0
    · left
      refine ⟨[], (receiveMany bus n (SPI_ReceiveByte bus w).2).1, (SPI_ReceiveByte bus w).1,
        by simp [receiveMany], by simp, h0, ?_⟩
      simp only [SPI_ReceiveByte]
      omega
    · rcases ih (SPI_ReceiveByte bus w).2 with ⟨pre, post, b, hs, hpre, hb, hlt⟩ | hall
      · left
        refine ⟨(SPI_ReceiveByte bus w).1 :: pre, post, b, by simp [receiveMany, hs], ?_, hb,
          hlt⟩
        intro x hx
        rcases List.mem_cons.mp hx with rfl | hx
        · exact h0
        · exact hpre x hx
      · right
        intro x hx
        simp only [receiveMany, List.mem_cons] at hx
        rcases hx with rfl | hx
        · exact h0
        · exact hall x hx

/-! ## Command framing and response polling -/

/-- C2: `SD_SendCommand cmd arg crc` asserts chip-select, sends the filler
`0xFF`, then the six bytes `cmd`, the four bytes of `arg` most significant
first, `crc`; every reception comes after them; and the four argument bytes
read big-endian give back `arg`. -/
theorem SD_SendCommand_frame_encoding (bus : Bus σ) (cmd arg crc : Nat) (w : World σ)
    (hcmd : cmd < 256) (harg : arg < 2 ^ 32) (hcrc : crc < 256) :
    (∃ rxs : List Nat,
      (SD_SendCommand bus cmd arg crc w).2.trace =
        w.trace ++
          [Event.cs GPIO_PIN_RESET, Event.tx [0xFF],
            Event.tx [cmd, (arg >>> 24) &&& 0xFF, (arg >>> 16) &&& 0xFF,
              (arg >>> 8) &&& 0xFF, arg &&& 0xFF, crc]] ++
          rxs.map Event.rx) ∧
      ((arg >>> 24) &&& 0xFF) * 2 ^ 24 + ((arg >>> 16) &&& 0xFF) * 2 ^ 16 +
        ((arg >>> 8) &&& 0xFF) * 2 ^ 8 + (arg &&& 0xFF) = arg := by
  constructor
  · rcases pollResponse_cases bus SD_CMD_RESPONSE_ATTEMPTS (afterFrame bus cmd arg crc w) with
      ⟨pre, post, b, hs, hpre, hb, _⟩ | hall
    · refine ⟨(receiveMany bus (pre.length + 1) (afterFrame bus cmd arg crc w)).1, ?_⟩
      rw [SD_SendCommand_eq, pollResponse_found bus _ _ pre post b hs hpre hb]
      simp only [receiveMany_trace, afterFrame_trace, commandFrame, and_ff_eq_mod,
        Nat.mod_eq_of_lt hcmd, Nat.mod_eq_of_lt harg, Nat.mod_eq_of_lt hcrc, Nat.shiftRight_zero]
    · refine ⟨(receiveMany bus SD_CMD_RESPONSE_ATTEMPTS (afterFrame bus cmd arg crc w)).1, ?_⟩
      rw [SD_SendCommand_eq, pollResponse_timeout bus _ _ hall]
      simp only [receiveMany_trace, afterFrame_trace, commandFrame, and_ff_eq_mod,
        Nat.mod_eq_of_lt hcmd, Nat.mod_eq_of_lt harg, Nat.mod_eq_of_lt hcrc, Nat.shiftRight_zero]
  · simp only [and_ff_eq_mod, Nat.shiftRight_eq_div_pow]
    omega

theorem SD_SendCommand_frame_encoding_witness :
    ((0x51 : Nat) < 256 ∧ (0x12345678 : Nat) < 2 ^ 32 ∧ (0x01 : Nat) < 256) ∧
      ((∃ rxs : List Nat,
        (SD_SendCommand scriptBus 0x51 0x12345678 0x01 (World.start [0xFF, 0x00])).2.trace =
          (World.start [0xFF, 0x00]).trace ++
            [Event.cs GPIO_PIN_RESET, Event.tx [0xFF],
              Event.tx [0x51, (0x12345678 >>> 24) &&& 0xFF, (0x12345678 >>> 16) &&& 0xFF,
                (0x12345678 >>> 8) &&& 0xFF, 0x12345678 &&& 0xFF, 0x01]] ++
            rxs.map Event.rx) ∧
        ((0x12345678 >>> 24) &&& 0xFF) * 2 ^ 24 + ((0x12345678 >>> 16) &&& 0xFF) * 2 ^ 16 +
          ((0x12345678 >>> 8) &&& 0xFF) * 2 ^ 8 + (0x12345678 &&& 0xFF) = 0x12345678) :=
  ⟨by decide, SD_SendCommand_frame_encoding scriptBus 0x51 0x12345678 0x01
    (World.start [0xFF, 0x00]) (by decide) (by decide) (by decide)⟩

/-- C3: when the stream of bytes the bus yields after the command frame is
`pre ++ b :: post` within the ten attempts, every byte of `pre` has bit 7 set
and `b` has it clear, `SD_SendCommand` returns `b`, and it has received
exactly the `pre.length + 1` bytes `pre ++ [b]` and nothing after `b`. -/
theorem SD_SendCommand_first_valid_status (bus : Bus σ) (cmd arg crc : Nat) (w : World σ)
    (pre post : List Nat) (b : Nat)
    (hs : (receiveMany bus SD_CMD_RESPONSE_ATTEMPTS (afterFrame bus cmd arg crc w)).1 =
      pre ++ b :: post)
    (hpre : ∀ x ∈ pre, x &&& 0x80 ≠ 0) (hb : b &&& 0x80 = 0) :
    (SD_SendCommand bus cmd arg crc w).1 = b ∧
      (SD_SendCommand bus cmd arg crc w).2 =
        (receiveMany bus (pre.length + 1) (afterFrame bus cmd arg crc w)).2 ∧
      (SD_SendCommand bus cmd arg crc w).2.trace =
        (afterFrame bus cmd arg crc w).trace ++ (pre ++ [b]).map Event.rx := by
  have hfound := pollResponse_found bus _ _ pre post b hs hpre hb
  rw [SD_SendCommand_eq, hfound]
  refine ⟨rfl, rfl, ?_⟩
  have hlen : pre.length + 1 ≤ SD_CMD_RESPONSE_ATTEMPTS := by
    have := receiveMany_length bus SD_CMD_RESPONSE_ATTEMPTS (afterFrame bus cmd arg crc w)
    rw [hs] at this
    simp at this
    omega
  have htake := receiveMany_take bus (pre.length + 1) SD_CMD_RESPONSE_ATTEMPTS
    (afterFrame bus cmd arg crc w) hlen
  rw [receiveMany_trace, htake, hs]
  simp [List.take_append_eq_append_take]

theorem SD_SendCommand_first_valid_status_witness :
    ((receiveMany scriptBus SD_CMD_RESPONSE_ATTEMPTS
          (afterFrame scriptBus 0x40 0 0x95 (World.start [0xFF, 0x80, 0x01, 0x00]))).1 =
        [0xFF, 0x80] ++ 0x01 :: [0x00, 0xFF, 0xFF, 0xFF, 0xFF, 0xFF, 0xFF]) ∧
      ((SD_SendCommand scriptBus 0x40 0 0x95 (World.start [0xFF, 0x80, 0x01, 0x00])).1 = 0x01 ∧
        (SD_SendCommand scriptBus 0x40 0 0x95 (World.start [0xFF, 0x80, 0x01, 0x00])).2 =
          (receiveMany scriptBus ([0xFF, 0x80].length + 1)
            (afterFrame scriptBus 0x40 0 0x95 (World.start [0xFF, 0x80, 0x01, 0x00]))).2 ∧
        (SD_SendCommand scriptBus 0x40 0 0x95 (World.start [0xFF, 0x80, 0x01, 0x00])).2.trace =
          (afterFrame scriptBus 0x40 0 0x95 (World.start [0xFF, 0x80, 0x01, 0x00])).trace ++
            ([0xFF, 0x80] ++ [0x01]).map Event.rx) :=
  ⟨by decide, SD_SendCommand_first_valid_status scriptBus 0x40 0 0x95
    (World.start [0xFF, 0x80, 0x01, 0x00]) [0xFF, 0x80] [0x00, 0xFF, 0xFF, 0xFF, 0xFF, 0xFF, 0xFF]
    0x01 (by decide) (by decide) (by decide)⟩

/-- C4: against a bus whose ten bytes after the frame all have bit 7 set,
`SD_SendCommand` returns `0xFF` having received exactly those
`SD_CMD_RESPONSE_ATTEMPTS = 10` bytes and no more; and it returns `0xFF` only
in that case. -/
theorem SD_SendCommand_bounded_polling (bus : Bus σ) (cmd arg crc : Nat) (w : World σ) :
    ((∀ x ∈ (receiveMany bus SD_CMD_RESPONSE_ATTEMPTS (afterFrame bus cmd arg crc w)).1,
          x &&& 0x80 ≠ 0) →
        (SD_SendCommand bus cmd arg crc w).1 = 0xFF ∧
          (SD_SendCommand bus cmd arg crc w).2 =
            (receiveMany bus SD_CMD_RESPONSE_ATTEMPTS (afterFrame bus cmd arg crc w)).2 ∧
          (∃ rxs : List Nat, rxs.length = 10 ∧
            (SD_SendCommand bus cmd arg crc w).2.trace =
              (afterFrame bus cmd arg crc w).trace ++ rxs.map Event.rx)) ∧
      ((SD_SendCommand bus cmd arg crc w).1 = 0xFF →
        ∀ x ∈ (receiveMany bus SD_CMD_RESPONSE_ATTEMPTS (afterFrame bus cmd arg crc w)).1,
          x &&& 0x80 ≠ 0) := by
  constructor
  · intro hall
    rw [SD_SendCommand_eq, pollResponse_timeout bus _ _ hall]
    exact ⟨rfl, rfl, _, receiveMany_length bus _ _, receiveMany_trace bus _ _⟩
  · intro hret
    rcases pollResponse_cases bus SD_CMD_RESPONSE_ATTEMPTS (afterFrame bus cmd arg crc w) with
      ⟨pre, post, b, hs, hpre, hb, _⟩ | hall
    · rw [SD_SendCommand_eq, pollResponse_found bus _ _ pre post b hs hpre hb] at hret
      simp only at hret
      rw [hret] at hb
      exact absurd hb (by decide)
    · exact hall

theorem SD_SendCommand_bounded_polling_witness :
    (SD_SendCommand scriptBus 0x40 0 0x95 (World.start [])).1 = 0xFF ∧
      (∃ rxs : List Nat, rxs.length = 10 ∧
        (SD_SendCommand scriptBus 0x40 0 0x95 (World.start [])).2.trace =
          (afterFrame scriptBus 0x40 0 0x95 (World.start [])).trace ++ rxs.map Event.rx) :=
  have h := (SD_SendCommand_bounded_polling scriptBus 0x40 0 0x95 (World.start [])).1 (by decide)
  ⟨h.1, h.2.2⟩

/-! ## Traces of the driver functions -/

theorem framesOf_append (a b : List Event) : framesOf (a ++ b) = framesOf a ++ framesOf b := by
  induction a with
  | nil => rfl
  | cons e a ih =>
    cases e with
    | tx bytes =>
      simp only [List.cons_append, framesOf]
      split <;> simp [ih]
    | _ => simpa [framesOf] using ih

theorem framesOf_map_rx (rxs : List Nat) : framesOf (rxs.map Event.rx) = [] := by
  induction rxs with
  | nil => rfl
  | cons b rxs ih => simpa [framesOf] using ih

theorem framesOf_replicate_filler (n : Nat) :
    framesOf (List.replicate n (Event.tx [0xFF])) = [] := by
  induction n with
  | zero => rfl
  | succ n ih => simpa [List.replicate_succ, framesOf] using ih

theorem framesOf_commandEvents_of_length (f rxs : List Nat) (h : f.length = 6) :
    framesOf (commandEvents f rxs) = [f] := by
  simp [commandEvents, framesOf, framesOf_map_rx, framesOf_append, h]

theorem framesOf_commandEvents (cmd arg crc : Nat) (rxs : List Nat) :
    framesOf (commandEvents (commandFrame cmd arg crc) rxs) = [commandFrame cmd arg crc] :=
  framesOf_commandEvents_of_length _ _ rfl

theorem opcodesOf_append (a b : List Event) :
    opcodesOf (a ++ b) = opcodesOf a ++ opcodesOf b := by
  simp [opcodesOf, framesOf_append]

theorem opcodesOf_opCondEvents (its : List (List Nat × List Nat)) :
    opcodesOf (opCondEvents its) = opCondOpcodes its.length := by
  induction its with
  | nil => rfl
  | cons it its ih =>
    simp only [opCondEvents, opcodesOf_append, ih, List.length_cons, opCondOpcodes]
    simp only [opcodesOf, framesOf_commandEvents]
    simp [commandFrame, CMD55, ACMD41]

theorem sendClocks_trace (bus : Bus σ) (n : Nat) (w : World σ) :
    (sendClocks bus n w).trace = w.trace ++ List.replicate n (Event.tx [0xFF]) := by
  induction n generalizing w with
  | zero => simp [sendClocks]
  | succ n ih =>
    simp only [sendClocks, ih, List.replicate_succ]
    simp [SPI_SendByte, HAL_SPI_Transmit, SD_DUMMY_BYTE]

/-- The events of one `SD_SendCommand` call; a returned status `0x00` is the
last byte received, after bytes that all have bit 7 set. -/
theorem SD_SendCommand_events (bus : Bus σ) (cmd arg crc : Nat) (w : World σ) :
    ∃ rxs : List Nat,
      (SD_SendCommand bus cmd arg crc w).2.trace =
        w.trace ++ commandEvents (commandFrame cmd arg crc) rxs ∧
      ((SD_SendCommand bus cmd arg crc w).1 = 0x00 →
        ∃ pre : List Nat, rxs = pre ++ [0x00] ∧ ∀ x ∈ pre, x &&& 0x80 ≠ 0) := by
  rcases pollResponse_cases bus SD_CMD_RESPONSE_ATTEMPTS (afterFrame bus cmd arg crc w) with
    ⟨pre, post, b, hs, hpre, hb, _⟩ | hall
  · have hfound := pollResponse_found bus _ _ pre post b hs hpre hb
    refine ⟨pre ++ [b], ?_, ?_⟩
    · rw [SD_SendCommand_eq, hfound]
      simp only
      rw [pollResponse_found_trace bus _ _ pre post b hs, afterFrame_trace]
      simp [commandEvents]
    · intro h0
      rw [SD_SendCommand_eq, hfound] at h0
      simp only at h0
      exact ⟨pre, by rw [h0], hpre⟩
  · refine ⟨(receiveMany bus SD_CMD_RESPONSE_ATTEMPTS (afterFrame bus cmd arg crc w)).1, ?_,
      ?_⟩
    · rw [SD_SendCommand_eq, pollResponse_timeout bus _ _ hall, receiveMany_trace,
        afterFrame_trace]
      simp [commandEvents]
    · intro h0
      rw [SD_SendCommand_eq, pollResponse_timeout bus _ _ hall] at h0
      simp at h0

/-- The events of the op-condition loop: complete passes, and when the loop
was left a last pass whose `ACMD41` status is `0x00`. -/
theorem opCondLoop_events (bus : Bus σ) (fuel : Nat) (w : World σ) :
    ∃ its : List (List Nat × List Nat),
      ((opCondLoop bus fuel w).1 = false ∧ its.length = fuel ∧
          (opCondLoop bus fuel w).2.trace = w.trace ++ opCondEvents its) ∨
        ((opCondLoop bus fuel w).1 = true ∧ its.length < fuel ∧
          ∃ r55 p41 : List Nat, (∀ x ∈ p41, x &&& 0x80 ≠ 0) ∧
            (opCondLoop bus fuel w).2.trace =
              w.trace ++ opCondEvents its ++
                commandEvents (commandFrame CMD55 0 SD_APP_CMD_INDICATOR) r55 ++
                commandEvents (commandFrame ACMD41 SD_HC_CAPABILITY_FLAG SD_APP_CMD_INDICATOR)
                  (p41 ++ [0x00])) := by
  induction fuel generalizing w with
  | zero => exact ⟨[], Or.inl ⟨rfl, rfl, by simp [opCondLoop, opCondEvents]⟩⟩
  | succ fuel ih =>
    obtain ⟨r55, h55, _⟩ := SD_SendCommand_events bus CMD55 0 SD_APP_CMD_INDICATOR w
    obtain ⟨r41, h41, hst⟩ := SD_SendCommand_events bus ACMD41 SD_HC_CAPABILITY_FLAG
      SD_APP_CMD_INDICATOR (SD_SendCommand bus CMD55 0 SD_APP_CMD_INDICATOR w).2
    by_cases hr : (SD_SendCommand bus ACMD41 SD_HC_CAPABILITY_FLAG SD_APP_CMD_INDICATOR
        (SD_SendCommand bus CMD55 0 SD_APP_CMD_INDICATOR w).2).1 = SD_READY_STATE
    · obtain ⟨p41, hp, hhigh⟩ := hst hr
      refine ⟨[], Or.inr ⟨?_, by simp, r55, p41, hhigh, ?_⟩⟩
      · simp [opCondLoop, hr]
      · simp only [opCondLoop, hr, ne_eq, not_true_eq_false, if_false]
        rw [h41, h55, hp]
        simp [opCondEvents]
    · obtain ⟨its, hrest⟩ := ih (SD_SendCommand bus ACMD41 SD_HC_CAPABILITY_FLAG
        SD_APP_CMD_INDICATOR (SD_SendCommand bus CMD55 0 SD_APP_CMD_INDICATOR w).2).2
      refine ⟨(r55, r41) :: its, ?_⟩
      simp only [opCondLoop, ne_eq, hr, not_false_eq_true, if_true]
      rcases hrest with ⟨hb, hlen, htr⟩ | ⟨hb, hlen, q55, q41, hhigh, htr⟩
      · refine Or.inl ⟨hb, by simp [hlen], ?_⟩
        rw [htr, h41, h55]
        simp [opCondEvents]
      · refine Or.inr ⟨hb, by simpa using hlen, q55, q41, hhigh, ?_⟩
        rw [htr, h41, h55]
        simp [opCondEvents]

/-! ## Initialization -/

/-- C5: on a bus that answers `CMD0` with `0x01`, `CMD8` with `0x01`, the
`ACMD41` of the first (`CMD55`, `ACMD41`) pair with `0x00` and `CMD58` with
`0x00`, `SD_Init` returns `SDCARD_OK`, the card state is Ready, and the command
frames sent are exactly `CMD0(0, 0x95)`, `CMD8(0x1AA, 0x87)`, `CMD55(0)`,
`ACMD41(0x40000000)`, `CMD58(0)`, in that order, once each. -/
theorem SD_Init_success_scenario (bus : Bus σ) (fuel : Nat) (w w1 w2 w3 w4 w5 : World σ)
    (r55 : Nat)
    (h0 : SD_SendCommand bus CMD0 0 SD_CMD0_CRC
      (sendClocks bus SD_INIT_CLOCK_CYCLES (sd_cs_deselect bus w)) = (0x01, w1))
    (h8 : SD_SendCommand bus CMD8 SD_CMD8_CHECK_PATTERN SD_CMD8_CRC w1 = (0x01, w2))
    (h55 : SD_SendCommand bus CMD55 0 SD_APP_CMD_INDICATOR w2 = (r55, w3))
    (h41 : SD_SendCommand bus ACMD41 SD_HC_CAPABILITY_FLAG SD_APP_CMD_INDICATOR w3 = (0x00, w4))
    (h58 : SD_SendCommand bus CMD58 0 SD_APP_CMD_INDICATOR w4 = (0x00, w5)) :
    SD_Init bus (fuel + 1) w =
        (some SDCARD_OK, SPI_SendByte bus SD_DUMMY_BYTE (sd_cs_deselect bus w5)) ∧
      cardStateAfterInit (SD_Init bus (fuel + 1) w).1 = CardState.Ready ∧
      ∃ evs : List Event, (SD_Init bus (fuel + 1) w).2.trace = w.trace ++ evs ∧
        framesOf evs =
          [[0x40, 0x00, 0x00, 0x00, 0x00, 0x95], [0x48, 0x00, 0x00, 0x01, 0xAA, 0x87],
            [0x77, 0x00, 0x00, 0x00, 0x00, 0x01], [0x69, 0x40, 0x00, 0x00, 0x00, 0x01],
            [0x7A, 0x00, 0x00, 0x00, 0x00, 0x01]] := by
  have hrun : SD_Init bus (fuel + 1) w =
      (some SDCARD_OK, SPI_SendByte bus SD_DUMMY_BYTE (sd_cs_deselect bus w5)) := by
    simp [SD_Init, opCondLoop, h0, h8, h55, h41, h58, SD_IDLE_STATE, SD_READY_STATE]
  refine ⟨hrun, by rw [hrun]; rfl, ?_⟩
  obtain ⟨x0, t0, _⟩ := SD_SendCommand_events bus CMD0 0 SD_CMD0_CRC
    (sendClocks bus SD_INIT_CLOCK_CYCLES (sd_cs_deselect bus w))
  obtain ⟨x8, t8, _⟩ := SD_SendCommand_events bus CMD8 SD_CMD8_CHECK_PATTERN SD_CMD8_CRC w1
  obtain ⟨x55, t55, _⟩ := SD_SendCommand_events bus CMD55 0 SD_APP_CMD_INDICATOR w2
  obtain ⟨x41, t41, _⟩ := SD_SendCommand_events bus ACMD41 SD_HC_CAPABILITY_FLAG
    SD_APP_CMD_INDICATOR w3
  obtain ⟨x58, t58, _⟩ := SD_SendCommand_events bus CMD58 0 SD_APP_CMD_INDICATOR w4
  rw [h0] at t0
  rw [h8] at t8
  rw [h55] at t55
  rw [h41] at t41
  rw [h58] at t58
  simp only at t0 t8 t55 t41 t58
  refine ⟨[Event.cs GPIO_PIN_SET] ++ List.replicate 10 (Event.tx [0xFF]) ++
    commandEvents (commandFrame CMD0 0 SD_CMD0_CRC) x0 ++
    commandEvents (commandFrame CMD8 SD_CMD8_CHECK_PATTERN SD_CMD8_CRC) x8 ++
    commandEvents (commandFrame CMD55 0 SD_APP_CMD_INDICATOR) x55 ++
    commandEvents (commandFrame ACMD41 SD_HC_CAPABILITY_FLAG SD_APP_CMD_INDICATOR) x41 ++
    commandEvents (commandFrame CMD58 0 SD_APP_CMD_INDICATOR) x58 ++
    [Event.cs GPIO_PIN_SET, Event.tx [0xFF]], ?_, ?_⟩
  · rw [hrun]
    simp only [SPI_SendByte, HAL_SPI_Transmit, sd_cs_deselect, HAL_GPIO_WritePin, t58, t41,
      t55, t8, t0, sendClocks_trace, SD_INIT_CLOCK_CYCLES, SD_DUMMY_BYTE]
    simp
  · simp only [framesOf_append, framesOf_commandEvents, framesOf_replicate_filler]
    simp [framesOf, commandFrame, CMD0, CMD8, CMD55, ACMD41, CMD58,
      SD_CMD0_CRC, SD_CMD8_CRC, SD_CMD8_CHECK_PATTERN, SD_APP_CMD_INDICATOR,
      SD_HC_CAPABILITY_FLAG]

theorem SD_Init_success_scenario_witness :
    (SD_Init scriptBus 1 (World.start [0x01, 0x01, 0x01, 0x00, 0x00])).1 = some SDCARD_OK ∧
      cardStateAfterInit (SD_Init scriptBus 1 (World.start [0x01, 0x01, 0x01, 0x00, 0x00])).1 =
        CardState.Ready ∧
      ∃ evs : List Event,
        (SD_Init scriptBus 1 (World.start [0x01, 0x01, 0x01, 0x00, 0x00])).2.trace =
          (World.start [0x01, 0x01, 0x01, 0x00, 0x00]).trace ++ evs ∧
        framesOf evs =
          [[0x40, 0x00, 0x00, 0x00, 0x00, 0x95], [0x48, 0x00, 0x00, 0x01, 0xAA, 0x87],
            [0x77, 0x00, 0x00, 0x00, 0x00, 0x01], [0x69, 0x40, 0x00, 0x00, 0x00, 0x01],
            [0x7A, 0x00, 0x00, 0x00, 0x00, 0x01]] :=
  have h := SD_Init_success_scenario scriptBus 0 (World.start [0x01, 0x01, 0x01, 0x00, 0x00])
    _ _ _ _ _ _ rfl rfl rfl rfl rfl
  ⟨by rw [h.1], h.2.1, h.2.2⟩

/-- C6: whenever the status returned for `CMD0` is not `0x01`, whatever the
bus would answer to later commands, `SD_Init` returns `SDCARD_ERROR` right
after the `CMD0` response, and the `CMD0` frame is the only command frame it
has sent. -/
theorem SD_Init_reset_gate (bus : Bus σ) (fuel : Nat) (w : World σ)
    (h0 : (SD_SendCommand bus CMD0 0 SD_CMD0_CRC
      (sendClocks bus SD_INIT_CLOCK_CYCLES (sd_cs_deselect bus w))).1 ≠ SD_IDLE_STATE) :
    SD_Init bus fuel w =
        (some SDCARD_ERROR,
          (SD_SendCommand bus CMD0 0 SD_CMD0_CRC
            (sendClocks bus SD_INIT_CLOCK_CYCLES (sd_cs_deselect bus w))).2) ∧
      ∃ evs : List Event, (SD_Init bus fuel w).2.trace = w.trace ++ evs ∧
        framesOf evs = [[0x40, 0x00, 0x00, 0x00, 0x00, 0x95]] := by
  have hrun : SD_Init bus fuel w =
      (some SDCARD_ERROR,
        (SD_SendCommand bus CMD0 0 SD_CMD0_CRC
          (sendClocks bus SD_INIT_CLOCK_CYCLES (sd_cs_deselect bus w))).2) := by
    simp only [SD_Init]
    rw [if_pos h0]
  refine ⟨hrun, ?_⟩
  obtain ⟨x0, t0, _⟩ := SD_SendCommand_events bus CMD0 0 SD_CMD0_CRC
    (sendClocks bus SD_INIT_CLOCK_CYCLES (sd_cs_deselect bus w))
  refine ⟨[Event.cs GPIO_PIN_SET] ++ List.replicate 10 (Event.tx [0xFF]) ++
    commandEvents (commandFrame CMD0 0 SD_CMD0_CRC) x0, ?_, ?_⟩
  · rw [hrun]
    show (SD_SendCommand bus CMD0 0 SD_CMD0_CRC
      (sendClocks bus SD_INIT_CLOCK_CYCLES (sd_cs_deselect bus w))).2.trace = _
    rw [t0, sendClocks_trace]
    simp [sd_cs_deselect, HAL_GPIO_WritePin, SD_INIT_CLOCK_CYCLES]
  · simp only [framesOf_append, framesOf_commandEvents, framesOf_replicate_filler]
    simp [framesOf, commandFrame, CMD0, SD_CMD0_CRC]

theorem SD_Init_reset_gate_witness :
    SD_Init scriptBus 5 (World.start [0x00, 0x01, 0x01, 0x00, 0x00]) =
        (some SDCARD_ERROR,
          (SD_SendCommand scriptBus CMD0 0 SD_CMD0_CRC
            (sendClocks scriptBus SD_INIT_CLOCK_CYCLES
              (sd_cs_deselect scriptBus (World.start [0x00, 0x01, 0x01, 0x00, 0x00])))).2) ∧
      ∃ evs : List Event,
        (SD_Init scriptBus 5 (World.start [0x00, 0x01, 0x01, 0x00, 0x00])).2.trace =
          (World.start [0x00, 0x01, 0x01, 0x00, 0x00]).trace ++ evs ∧
        framesOf evs = [[0x40, 0x00, 0x00, 0x00, 0x00, 0x95]] :=
  SD_Init_reset_gate scriptBus 5 (World.start [0x00, 0x01, 0x01, 0x00, 0x00]) (by decide)

/-- Every run of `SD_Init`, returned or not, has as its events an initial
segment of the events of some complete successful initialization. -/
theorem SD_Init_events (bus : Bus σ) (fuel : Nat) (w : World σ) :
    ∃ (r0 r8 : List Nat) (its : List (List Nat × List Nat)) (r55 p41 r58 : List Nat)
      (evs : List Event),
      (SD_Init bus fuel w).2.trace = w.trace ++ evs ∧
        evs <+: initEvents r0 r8 its r55 p41 r58 ∧ ∀ x ∈ p41, x &&& 0x80 ≠ 0 := by
  have hpre : (sendClocks bus SD_INIT_CLOCK_CYCLES (sd_cs_deselect bus w)).trace =
      w.trace ++ ([Event.cs GPIO_PIN_SET] ++ List.replicate 10 (Event.tx [0xFF])) := by
    rw [sendClocks_trace]
    simp [sd_cs_deselect, HAL_GPIO_WritePin, SD_INIT_CLOCK_CYCLES]
  obtain ⟨x0, t0, _⟩ := SD_SendCommand_events bus CMD0 0 SD_CMD0_CRC
    (sendClocks bus SD_INIT_CLOCK_CYCLES (sd_cs_deselect bus w))
  rw [hpre] at t0
  simp only [SD_Init]
  generalize SD_SendCommand bus CMD0 0 SD_CMD0_CRC
    (sendClocks bus SD_INIT_CLOCK_CYCLES (sd_cs_deselect bus w)) = c0 at t0 ⊢
  by_cases h0 : c0.1 ≠ SD_IDLE_STATE
  · rw [if_pos h0]
    refine ⟨x0, [], [], [], [], [],
      [Event.cs GPIO_PIN_SET] ++ List.replicate 10 (Event.tx [0xFF]) ++
        commandEvents (commandFrame CMD0 0 SD_CMD0_CRC) x0, ?_, ?_, by simp⟩
    · show c0.2.trace = _
      rw [t0]
      simp only [List.append_assoc]
    · simp only [initEvents, List.append_assoc, List.prefix_append_right_inj]
      exact List.prefix_append _ _
  rw [if_neg h0]
  obtain ⟨x8, t8, _⟩ := SD_SendCommand_events bus CMD8 SD_CMD8_CHECK_PATTERN SD_CMD8_CRC c0.2
  rw [t0] at t8
  generalize SD_SendCommand bus CMD8 SD_CMD8_CHECK_PATTERN SD_CMD8_CRC c0.2 = c8 at t8 ⊢
  by_cases h8 : c8.1 ≠ SD_IDLE_STATE
  · rw [if_pos h8]
    refine ⟨x0, x8, [], [], [], [],
      [Event.cs GPIO_PIN_SET] ++ List.replicate 10 (Event.tx [0xFF]) ++
        commandEvents (commandFrame CMD0 0 SD_CMD0_CRC) x0 ++
        commandEvents (commandFrame CMD8 SD_CMD8_CHECK_PATTERN SD_CMD8_CRC) x8, ?_, ?_, by simp⟩
    · show c8.2.trace = _
      rw [t8]
      simp only [List.append_assoc]
    · simp only [initEvents, List.append_assoc, List.prefix_append_right_inj]
      exact List.prefix_append _ _
  rw [if_neg h8]
  obtain ⟨its, hloop⟩ := opCondLoop_events bus fuel c8.2
  rw [t8] at hloop
  rcases hl : opCondLoop bus fuel c8.2 with ⟨b, w3⟩
  rw [hl] at hloop
  rcases hloop with ⟨hb, _, htr⟩ | ⟨hb, _, x55, p41, hhigh, htr⟩
  · simp only at hb htr
    subst hb
    refine ⟨x0, x8, its, [], [], [],
      [Event.cs GPIO_PIN_SET] ++ List.replicate 10 (Event.tx [0xFF]) ++
        commandEvents (commandFrame CMD0 0 SD_CMD0_CRC) x0 ++
        commandEvents (commandFrame CMD8 SD_CMD8_CHECK_PATTERN SD_CMD8_CRC) x8 ++
        opCondEvents its, ?_, ?_, by simp⟩
    · show w3.trace = _
      rw [htr]
      simp only [List.append_assoc]
    · simp only [initEvents, List.append_assoc, List.prefix_append_right_inj]
      exact List.prefix_append _ _
  · simp only at hb htr
    subst hb
    obtain ⟨x58, t58, _⟩ := SD_SendCommand_events bus CMD58 0 SD_APP_CMD_INDICATOR w3
    rw [htr] at t58
    simp only
    generalize SD_SendCommand bus CMD58 0 SD_APP_CMD_INDICATOR w3 = c58 at t58 ⊢
    by_cases h58 : c58.1 ≠ SD_READY_STATE
    · rw [if_pos h58]
      refine ⟨x0, x8, its, x55, p41, x58,
        [Event.cs GPIO_PIN_SET] ++ List.replicate 10 (Event.tx [0xFF]) ++
          commandEvents (commandFrame CMD0 0 SD_CMD0_CRC) x0 ++
          commandEvents (commandFrame CMD8 SD_CMD8_CHECK_PATTERN SD_CMD8_CRC) x8 ++
          opCondEvents its ++
          commandEvents (commandFrame CMD55 0 SD_APP_CMD_INDICATOR) x55 ++
          commandEvents (commandFrame ACMD41 SD_HC_CAPABILITY_FLAG SD_APP_CMD_INDICATOR)
            (p41 ++ [0x00]) ++
          commandEvents (commandFrame CMD58 0 SD_APP_CMD_INDICATOR) x58, ?_, ?_, hhigh⟩
      · show c58.2.trace = _
        rw [t58]
        simp only [List.append_assoc]
      · simp only [initEvents, List.append_assoc, List.prefix_append_right_inj]
        exact List.prefix_append _ _
    · rw [if_neg h58]
      refine ⟨x0, x8, its, x55, p41, x58, initEvents x0 x8 its x55 p41 x58, ?_,
        List.prefix_refl _, hhigh⟩
      show (SPI_SendByte bus SD_DUMMY_BYTE (sd_cs_deselect bus c58.2)).trace = _
      simp only [SPI_SendByte, HAL_SPI_Transmit, sd_cs_deselect, HAL_GPIO_WritePin, t58,
        initEvents, SD_DUMMY_BYTE, List.append_assoc]
      simp

theorem opcodesOf_mono {a b : List Event} (h : a <+: b) : opcodesOf a <+: opcodesOf b := by
  obtain ⟨t, rfl⟩ := h
  rw [opcodesOf_append]
  exact List.prefix_append _ _

theorem opCondOpcodes_succ (k : Nat) :
    opCondOpcodes (k + 1) = opCondOpcodes k ++ [0x77, 0x69] := by
  induction k with
  | zero => rfl
  | succ k ih =>
    show 0x77 :: 0x69 :: opCondOpcodes (k + 1) = (0x77 :: 0x69 :: opCondOpcodes k) ++ _
    rw [ih]
    rfl

theorem opcodesOf_initEvents (r0 r8 : List Nat) (its : List (List Nat × List Nat))
    (r55 p41 r58 : List Nat) :
    opcodesOf (initEvents r0 r8 its r55 p41 r58) = initOpcodes (its.length + 1) := by
  simp only [initEvents, opcodesOf_append, opcodesOf_opCondEvents, initOpcodes,
    opCondOpcodes_succ]
  simp only [opcodesOf, framesOf_commandEvents, framesOf_replicate_filler]
  simp [framesOf, commandFrame, CMD0, CMD8, CMD55, ACMD41, CMD58]

/-- In the opcode sequence of an initialization, `0x69` directly follows `0x77`. -/
theorem opCondOpcodes_split (k : Nat) (a c : List Nat)
    (h : opCondOpcodes k ++ [0x7A] = a ++ 0x69 :: c) : ∃ a', a = a' ++ [0x77] := by
  induction k generalizing a with
  | zero =>
    rcases a with _ | ⟨x, a⟩
    · simp [opCondOpcodes] at h
    · simp [opCondOpcodes] at h
  | succ k ih =>
    rcases a with _ | ⟨x, _ | ⟨y, a⟩⟩
    · simp [opCondOpcodes] at h
    · simp only [opCondOpcodes, List.cons_append, List.nil_append, List.cons.injEq] at h
      exact ⟨[], by simp [h.1]⟩
    · simp only [opCondOpcodes, List.cons_append, List.cons.injEq] at h
      obtain ⟨a', ha'⟩ := ih a h.2.2
      exact ⟨x :: y :: a', by simp [ha']⟩

theorem initOpcodes_split (k : Nat) (a c : List Nat)
    (h : initOpcodes k = a ++ 0x69 :: c) : ∃ a', a = a' ++ [0x77] := by
  rcases a with _ | ⟨x, _ | ⟨y, a⟩⟩
  · simp [initOpcodes] at h
  · simp [initOpcodes] at h
  · simp only [initOpcodes, List.cons_append, List.cons.injEq] at h
    obtain ⟨a', ha'⟩ := opCondOpcodes_split k a c h.2.2
    exact ⟨x :: y :: a', by simp [ha']⟩

/-- A list splits in only one way around its single element satisfying `p`. -/
theorem split_unique {α : Type} (p : α → Prop) (E1 E2 a b : List α) (x y : α)
    (h : E1 ++ x :: E2 = a ++ y :: b) (hy : p y)
    (h1 : ∀ e ∈ E1, ¬ p e) (h2 : ∀ e ∈ E2, ¬ p e) : a = E1 := by
  induction E1 generalizing a with
  | nil =>
    rcases a with _ | ⟨a0, a⟩
    · rfl
    · simp only [List.nil_append, List.cons_append, List.cons.injEq] at h
      exact absurd hy (h2 y (by rw [h.2]; simp))
  | cons e E1 ih =>
    rcases a with _ | ⟨a0, a⟩
    · simp only [List.nil_append, List.cons_append, List.cons.injEq] at h
      exact absurd hy (by rw [← h.1]; exact h1 e (List.mem_cons_self _ _))
    · simp only [List.cons_append, List.cons.injEq] at h
      rw [ih a h.2 (fun e' he' => h1 e' (List.mem_cons_of_mem _ he')), h.1]

theorem not_sendsOpcode_commandEvents (op : Nat) (f rxs : List Nat) (hf : f.headD 0 ≠ op) :
    ∀ e ∈ commandEvents f rxs, ¬ sendsOpcode op e := by
  intro e he
  rintro ⟨g, rfl, hlen, hop⟩
  simp only [commandEvents, List.mem_append, List.mem_cons, List.mem_singleton, List.mem_map,
    Event.tx.injEq, List.not_mem_nil, or_false] at he
  rcases he with (he | he | he) | ⟨b, _, hb⟩
  · cases he
  · subst he
    simp at hlen
  · subst he
    exact hf hop
  · cases hb

theorem not_sendsOpcode_map_rx (op : Nat) (rxs : List Nat) :
    ∀ e ∈ rxs.map Event.rx, ¬ sendsOpcode op e := by
  intro e he
  rintro ⟨g, rfl, _, _⟩
  simp at he

theorem not_sendsOpcode_opCondEvents (its : List (List Nat × List Nat)) :
    ∀ e ∈ opCondEvents its, ¬ sendsOpcode 0x7A e := by
  induction its with
  | nil => simp [opCondEvents]
  | cons it its ih =>
    intro e he
    simp only [opCondEvents, List.mem_append] at he
    rcases he with (he | he) | he
    · exact not_sendsOpcode_commandEvents _ _ _ (by decide) e he
    · exact not_sendsOpcode_commandEvents _ _ _ (by decide) e he
    · exact ih e he

theorem not_sendsOpcode_filler (op : Nat) (l : List Event)
    (hl : ∀ e ∈ l,
      e = Event.cs GPIO_PIN_SET ∨ e = Event.cs GPIO_PIN_RESET ∨ e = Event.tx [0xFF]) :
    ∀ e ∈ l, ¬ sendsOpcode op e := by
  intro e he
  rintro ⟨g, rfl, hlen, _⟩
  rcases hl _ he with h | h | h
  · cases h
  · cases h
  · cases h
    simp at hlen

/-- The events of a complete initialization split around the `CMD58` frame. -/
theorem initEvents_split (r0 r8 : List Nat) (its : List (List Nat × List Nat))
    (r55 p41 r58 : List Nat) :
    initEvents r0 r8 its r55 p41 r58 =
      initEventsToOCR r0 r8 its r55 p41 ++
        Event.tx (commandFrame CMD58 0 SD_APP_CMD_INDICATOR) ::
          (r58.map Event.rx ++ [Event.cs GPIO_PIN_SET, Event.tx [0xFF]]) := by
  simp only [initEvents, initEventsToOCR, commandEvents, List.append_assoc, List.cons_append,
    List.nil_append]

/-- C7: at every point of every run of `SD_Init` (every initial segment `pre`
of the events of a run, returned or still looping), the opcodes of the command
frames sent so far are an initial segment of `0x40, 0x48, (0x77, 0x69)` repeated
`k ≥ 1` times, `0x7A`; every `0x69` frame directly follows a `0x77` frame; and a
`0x7A` frame directly follows an `ACMD41` exchange whose received bytes end in
the status `0x00` (all earlier ones having bit 7 set), chip-select and the
filler. -/
theorem SD_Init_command_order (bus : Bus σ) (fuel : Nat) (w : World σ) :
    ∃ evs : List Event, (SD_Init bus fuel w).2.trace = w.trace ++ evs ∧
      ∀ pre : List Event, pre <+: evs →
        (∃ k : Nat, 1 ≤ k ∧ opcodesOf pre <+: initOpcodes k) ∧
        (∀ a c : List Nat, opcodesOf pre = a ++ 0x69 :: c → ∃ a', a = a' ++ [0x77]) ∧
        (∀ (a b : List Event) (f : List Nat), pre = a ++ Event.tx f :: b →
          f.length = 6 → f.headD 0 = 0x7A →
          ∃ (a' : List Event) (p41 : List Nat),
            a = a' ++
                commandEvents (commandFrame ACMD41 SD_HC_CAPABILITY_FLAG SD_APP_CMD_INDICATOR)
                  (p41 ++ [0x00]) ++
                [Event.cs GPIO_PIN_RESET, Event.tx [0xFF]] ∧
              ∀ x ∈ p41, x &&& 0x80 ≠ 0) := by
  obtain ⟨r0, r8, its, r55, p41, r58, evs, htr, hpx, hhigh⟩ := SD_Init_events bus fuel w
  refine ⟨evs, htr, ?_⟩
  intro pre hpre
  have hfull : pre <+: initEvents r0 r8 its r55 p41 r58 := hpre.trans hpx
  have hop : opcodesOf pre <+: initOpcodes (its.length + 1) := by
    rw [← opcodesOf_initEvents r0 r8 its r55 p41 r58]
    exact opcodesOf_mono hfull
  refine ⟨⟨its.length + 1, by omega, hop⟩, ?_, ?_⟩
  · intro a c hac
    obtain ⟨t, ht⟩ := hop
    rw [hac] at ht
    exact initOpcodes_split _ a (c ++ t) (by rw [← ht]; simp)
  · intro a b f hsplit hlen hhd
    obtain ⟨t, ht⟩ := hfull
    rw [hsplit, initEvents_split] at ht
    have hsp : initEventsToOCR r0 r8 its r55 p41 ++
        Event.tx (commandFrame CMD58 0 SD_APP_CMD_INDICATOR) ::
          (r58.map Event.rx ++ [Event.cs GPIO_PIN_SET, Event.tx [0xFF]]) =
        a ++ Event.tx f :: (b ++ t) := by
      rw [← ht]
      simp
    have ha := split_unique (sendsOpcode 0x7A) _ _ a (b ++ t) _ (Event.tx f) hsp
      ⟨f, rfl, hlen, hhd⟩ ?_ ?_
    · refine ⟨[Event.cs GPIO_PIN_SET] ++ List.replicate 10 (Event.tx [0xFF]) ++
        commandEvents (commandFrame CMD0 0 SD_CMD0_CRC) r0 ++
        commandEvents (commandFrame CMD8 SD_CMD8_CHECK_PATTERN SD_CMD8_CRC) r8 ++
        opCondEvents its ++
        commandEvents (commandFrame CMD55 0 SD_APP_CMD_INDICATOR) r55, p41, ?_, hhigh⟩
      rw [ha]
      rfl
    · intro e he
      simp only [initEventsToOCR, List.mem_append] at he
      rcases he with ((((((he | he) | he) | he) | he) | he) | he) | he
      · exact not_sendsOpcode_filler _ _ (by simp) e he
      · exact not_sendsOpcode_filler _ _ (by simp) e he
      · exact not_sendsOpcode_commandEvents _ _ _ (by decide) e he
      · exact not_sendsOpcode_commandEvents _ _ _ (by decide) e he
      · exact not_sendsOpcode_opCondEvents its e he
      · exact not_sendsOpcode_commandEvents _ _ _ (by decide) e he
      · exact not_sendsOpcode_commandEvents _ _ _ (by decide) e he
      · exact not_sendsOpcode_filler _ _ (by simp) e he
    · intro e he
      simp only [List.mem_append] at he
      rcases he with he | he
      · exact not_sendsOpcode_map_rx _ _ e he
      · exact not_sendsOpcode_filler _ _ (by simp) e he

theorem SD_Init_command_order_witness :
    ∃ evs : List Event,
      (SD_Init scriptBus 3 (World.start [0x01, 0x01, 0x01, 0x01, 0x01, 0x00, 0x00])).2.trace =
        (World.start [0x01, 0x01, 0x01, 0x01, 0x01, 0x00, 0x00]).trace ++ evs ∧
      ((∃ k : Nat, 1 ≤ k ∧ opcodesOf evs <+: initOpcodes k) ∧
        opcodesOf evs = [0x40, 0x48, 0x77, 0x69, 0x77, 0x69, 0x7A]) :=
  have h := SD_Init_command_order scriptBus 3
    (World.start [0x01, 0x01, 0x01, 0x01, 0x01, 0x00, 0x00])
  match h with
  | ⟨evs, htr, hall⟩ =>
    ⟨evs, htr, (hall evs (List.prefix_refl _)).1, by
      have h2 : evs = (SD_Init scriptBus 3
          (World.start [0x01, 0x01, 0x01, 0x01, 0x01, 0x00, 0x00])).2.trace := by
        rw [htr]; rfl
      rw [h2]
      decide⟩

/-! ## Block transfers -/

theorem waitReady_events (bus : Bus σ) (fuel : Nat) (w : World σ)
    (h : (waitReady bus fuel w).1 = true) :
    ∃ n : Nat, (waitReady bus fuel w).2.trace =
      w.trace ++ List.replicate n (Event.state false) ++ [Event.state true] := by
  induction fuel generalizing w with
  | zero => simp [waitReady] at h
  | succ fuel ih =>
    by_cases hr : (bus.getState w.dev).1 = true
    · refine ⟨0, ?_⟩
      simp [waitReady, HAL_SPI_GetState, hr]
    · have hr' : (bus.getState w.dev).1 = false := by simpa using hr
      simp only [waitReady, HAL_SPI_GetState, hr', Bool.false_eq_true, if_false] at h ⊢
      obtain ⟨n, hn⟩ := ih _ h
      refine ⟨n + 1, ?_⟩
      rw [hn]
      simp [List.replicate_succ]

theorem busyWait_events (bus : Bus σ) (fuel : Nat) (w : World σ)
    (h : (busyWait bus fuel w).1 = true) :
    ∃ (busy : List Nat) (last : Nat),
      (busyWait bus fuel w).2.trace = w.trace ++ busy.map Event.rx ++ [Event.rx last] ∧
        (∀ b ∈ busy, b = 0x00) ∧ last ≠ 0x00 := by
  induction fuel generalizing w with
  | zero => simp [busyWait] at h
  | succ fuel ih =>
    by_cases hr : (SPI_ReceiveByte bus w).1 = 0x00
    · simp only [busyWait, hr, if_true] at h ⊢
      obtain ⟨busy, last, htr, hz, hl⟩ := ih _ h
      refine ⟨0x00 :: busy, last, ?_, ?_, hl⟩
      · rw [htr]
        have : (SPI_ReceiveByte bus w).2.trace = w.trace ++ [Event.rx (SPI_ReceiveByte bus w).1] :=
          rfl
        rw [this, hr]
        simp
      · intro b hb
        rcases List.mem_cons.mp hb with rfl | hb
        · rfl
        · exact hz b hb
    · refine ⟨[], (SPI_ReceiveByte bus w).1, ?_, by simp, hr⟩
      simp only [busyWait, hr, if_false]
      simp [SPI_ReceiveByte]

theorem waitToken_exhausted (bus : Bus σ) (n : Nat) (w : World σ)
    (h : ∀ x ∈ (receiveMany bus n w).1, x ≠ SD_START_BLOCK_TOKEN) :
    waitToken bus n w = (receiveMany bus n w).2 := by
  induction n generalizing w with
  | zero => rfl
  | succ n ih =>
    simp only [receiveMany, List.mem_cons, forall_eq_or_imp] at h
    simp only [waitToken, receiveMany]
    rw [if_neg h.1]
    exact ih _ h.2

theorem receiveMany_scriptBus_nil (n : Nat) (tr : List Event) :
    receiveMany scriptBus n ⟨[], tr⟩ =
      (List.replicate n 0xFF, ⟨[], tr ++ List.replicate n (Event.rx 0xFF)⟩) := by
  induction n generalizing tr with
  | zero => simp [receiveMany]
  | succ n ih =>
    have hstep : SPI_ReceiveByte scriptBus ⟨[], tr⟩ = (0xFF, ⟨[], tr ++ [Event.rx 0xFF]⟩) :=
      rfl
    simp only [receiveMany, hstep, ih]
    simp [List.replicate_succ]

theorem waitToken_scriptBus_nil (n : Nat) (tr : List Event) :
    waitToken scriptBus n ⟨[], tr⟩ = ⟨[], tr ++ List.replicate n (Event.rx 0xFF)⟩ := by
  rw [waitToken_exhausted, receiveMany_scriptBus_nil]
  rw [receiveMany_scriptBus_nil]
  intro x hx
  rw [List.eq_of_mem_replicate hx]
  decide

/-- C8 (the code at the failing input): on a bus that answers `CMD17` with
`0x00` and then yields `0xFF` for ever, never the token `0xFE`, `SD_ReadBlock`
uses up the `SD_DATA_TOKEN_WAIT` receptions, then starts the DMA receive all
the same and returns `SDCARD_OK`. -/
theorem SD_ReadBlock_token_timeout_falls_through :
    SD_ReadBlock scriptBus 1 7 (World.start [0x00]) =
      (some SDCARD_OK,
        ⟨[], commandEvents (commandFrame CMD17 7 SD_APP_CMD_INDICATOR) [0x00] ++
          List.replicate SD_DATA_TOKEN_WAIT (Event.rx 0xFF) ++
          [Event.rxDMA 512 true, Event.state true, Event.rx 0xFF, Event.cs GPIO_PIN_SET,
            Event.tx [0xFF]]⟩) := by
  have hcmd : SD_SendCommand scriptBus CMD17 7 SD_APP_CMD_INDICATOR (World.start [0x00]) =
      (0x00, ⟨[], commandEvents (commandFrame CMD17 7 SD_APP_CMD_INDICATOR) [0x00]⟩) := by
    rfl
  simp only [SD_ReadBlock, hcmd, waitToken_scriptBus_nil]
  simp [SD_READY_STATE, HAL_SPI_Receive_DMA, scriptBus, waitReady, HAL_SPI_GetState,
    SPI_ReceiveByte, sd_cs_deselect, HAL_GPIO_WritePin, SPI_SendByte, HAL_SPI_Transmit,
    SD_BLOCK_SIZE, SD_DUMMY_BYTE]

/-- C9: when `CMD24` is accepted with status `0x00`, the DMA write starts and
completes, and the data-response byte `r` has `r & 0x1F ≠ 0x05`,
`SD_WriteBlock` returns `SDCARD_ERROR`; the only thing it does after receiving
`r` is to release chip-select, so no byte of the busy wait is received. -/
theorem SD_WriteBlock_data_rejected (bus : Bus σ) (fuel blockAddr : Nat) (buffer : List Nat)
    (w wc wd wp wr : World σ) (r : Nat)
    (hcmd : SD_SendCommand bus CMD24 blockAddr SD_APP_CMD_INDICATOR w = (0x00, wc))
    (hdma : HAL_SPI_Transmit_DMA bus buffer SD_BLOCK_SIZE
      (SPI_SendByte bus SD_START_BLOCK_TOKEN wc) = (true, wd))
    (hready : waitReady bus fuel wd = (true, wp))
    (hresp : SPI_ReceiveByte bus
      (SPI_SendByte bus SD_CRC_DUMMY_BYTE (SPI_SendByte bus SD_CRC_DUMMY_BYTE wp)) = (r, wr))
    (hrej : r &&& 0x1F ≠ 0x05) :
    SD_WriteBlock bus fuel blockAddr buffer w = (some SDCARD_ERROR, sd_cs_deselect bus wr) ∧
      ∃ before : List Event,
        (SD_WriteBlock bus fuel blockAddr buffer w).2.trace =
          before ++ [Event.rx r, Event.cs GPIO_PIN_SET] := by
  have hrun : SD_WriteBlock bus fuel blockAddr buffer w =
      (some SDCARD_ERROR, sd_cs_deselect bus wr) := by
    simp [SD_WriteBlock, hcmd, hdma, hready, hresp, hrej, SD_READY_STATE,
      SD_DATA_ACCEPTED_TOKEN]
  refine ⟨hrun, ?_⟩
  have hwr : wr.trace =
      (SPI_SendByte bus SD_CRC_DUMMY_BYTE (SPI_SendByte bus SD_CRC_DUMMY_BYTE wp)).trace ++
        [Event.rx r] := by
    have h1 := congrArg (fun p => p.2.trace) hresp
    have h2 := congrArg (fun p => p.1) hresp
    simp only [SPI_ReceiveByte] at h1 h2
    rw [← h1, h2]
  refine ⟨(SPI_SendByte bus SD_CRC_DUMMY_BYTE (SPI_SendByte bus SD_CRC_DUMMY_BYTE wp)).trace,
    ?_⟩
  rw [hrun]
  simp [sd_cs_deselect, HAL_GPIO_WritePin, hwr]

theorem SD_WriteBlock_data_rejected_witness :
    SD_WriteBlock scriptBus 1 7 (List.replicate 512 0xA5) (World.start [0x00, 0x0B]) =
        (some SDCARD_ERROR,
          sd_cs_deselect scriptBus
            (SPI_ReceiveByte scriptBus
              (SPI_SendByte scriptBus SD_CRC_DUMMY_BYTE
                (SPI_SendByte scriptBus SD_CRC_DUMMY_BYTE
                  (waitReady scriptBus 1
                    (HAL_SPI_Transmit_DMA scriptBus (List.replicate 512 0xA5) SD_BLOCK_SIZE
                      (SPI_SendByte scriptBus SD_START_BLOCK_TOKEN
                        (SD_SendCommand scriptBus CMD24 7 SD_APP_CMD_INDICATOR
                          (World.start [0x00, 0x0B])).2)).2).2))).2) ∧
      ∃ before : List Event,
        (SD_WriteBlock scriptBus 1 7 (List.replicate 512 0xA5)
            (World.start [0x00, 0x0B])).2.trace =
          before ++ [Event.rx 0x0B, Event.cs GPIO_PIN_SET] :=
  SD_WriteBlock_data_rejected scriptBus 1 7 (List.replicate 512 0xA5)
    (World.start [0x00, 0x0B]) _ _ _ _ 0x0B rfl rfl rfl rfl (by decide)

theorem txBytes_append (a b : List Event) : txBytes (a ++ b) = txBytes a ++ txBytes b := by
  induction a with
  | nil => rfl
  | cons e a ih => cases e <;> simp [txBytes, ih]

theorem txBytes_replicate_state (n : Nat) (ready : Bool) :
    txBytes (List.replicate n (Event.state ready)) = [] := by
  induction n with
  | zero => rfl
  | succ n ih => simpa [List.replicate_succ, txBytes] using ih

theorem commandFrame_bytes (cmd arg crc : Nat) (hcmd : cmd < 256) (harg : arg < 2 ^ 32)
    (hcrc : crc < 256) :
    commandFrame cmd arg crc =
      [cmd, (arg >>> 24) &&& 0xFF, (arg >>> 16) &&& 0xFF, (arg >>> 8) &&& 0xFF, arg &&& 0xFF,
        crc] := by
  simp only [commandFrame, and_ff_eq_mod, Nat.mod_eq_of_lt hcmd, Nat.mod_eq_of_lt harg,
    Nat.mod_eq_of_lt hcrc, Nat.shiftRight_zero]

/-- C10: on every run of `SD_WriteBlock index data` that returns `SDCARD_OK`
the events are: the `CMD24` frame (opcode `0x58`, argument `index`) answered
by status `0x00`; then the transmissions `0xFE`, the 512 bytes of `data` in
order, `0xFF`, `0xFF`, with no reception among them; then the data-response
byte `r` with `r & 0x1F = 0x05`; then received bytes that are all `0x00` up to
a last, nonzero one; then chip-select release and the filler. -/
theorem SD_WriteBlock_wire_sequence (bus : Bus σ) (fuel blockAddr : Nat) (buffer : List Nat)
    (w : World σ) (hlen : buffer.length = 512) (haddr : blockAddr < 2 ^ 32)
    (hok : (SD_WriteBlock bus fuel blockAddr buffer w).1 = some SDCARD_OK) :
    ∃ (pre : List Nat) (n r : Nat) (busy : List Nat) (last : Nat),
      (SD_WriteBlock bus fuel blockAddr buffer w).2.trace =
          w.trace ++
            commandEvents
              [0x58, (blockAddr >>> 24) &&& 0xFF, (blockAddr >>> 16) &&& 0xFF,
                (blockAddr >>> 8) &&& 0xFF, blockAddr &&& 0xFF, 0x01] (pre ++ [0x00]) ++
            ([Event.tx [0xFE], Event.txDMA buffer true] ++ List.replicate n (Event.state false) ++
              [Event.state true, Event.tx [0xFF], Event.tx [0xFF]]) ++
            [Event.rx r] ++ busy.map Event.rx ++
            [Event.rx last, Event.cs GPIO_PIN_SET, Event.tx [0xFF]] ∧
        (∀ x ∈ pre, x &&& 0x80 ≠ 0) ∧
        txBytes ([Event.tx [0xFE], Event.txDMA buffer true] ++
            List.replicate n (Event.state false) ++
            [Event.state true, Event.tx [0xFF], Event.tx [0xFF]]) =
          0xFE :: buffer ++ [0xFF, 0xFF] ∧
        r &&& 0x1F = 0x05 ∧ (∀ b ∈ busy, b = 0x00) ∧ last ≠ 0x00 := by
  obtain ⟨rxs, tcmd, hst⟩ := SD_SendCommand_events bus CMD24 blockAddr SD_APP_CMD_INDICATOR w
  rw [commandFrame_bytes CMD24 blockAddr SD_APP_CMD_INDICATOR (by decide) haddr (by decide)]
    at tcmd
  simp only [SD_WriteBlock] at hok ⊢
  generalize SD_SendCommand bus CMD24 blockAddr SD_APP_CMD_INDICATOR w = c at tcmd hst hok ⊢
  by_cases hc : c.1 ≠ SD_READY_STATE
  · rw [if_pos hc] at hok
    simp at hok
  rw [if_neg hc] at hok ⊢
  obtain ⟨pre, hpre, hhigh⟩ := hst (by simpa [SD_READY_STATE] using hc)
  have td : (HAL_SPI_Transmit_DMA bus buffer SD_BLOCK_SIZE
      (SPI_SendByte bus SD_START_BLOCK_TOKEN c.2)).2.trace =
      c.2.trace ++ [Event.tx [0xFE], Event.txDMA buffer (HAL_SPI_Transmit_DMA bus buffer
        SD_BLOCK_SIZE (SPI_SendByte bus SD_START_BLOCK_TOKEN c.2)).1] := by
    simp [HAL_SPI_Transmit_DMA, SPI_SendByte, HAL_SPI_Transmit, SD_BLOCK_SIZE,
      SD_START_BLOCK_TOKEN, List.take_of_length_le (le_of_eq hlen)]
  generalize HAL_SPI_Transmit_DMA bus buffer SD_BLOCK_SIZE
    (SPI_SendByte bus SD_START_BLOCK_TOKEN c.2) = d at td hok ⊢
  by_cases hd : d.1 = false
  · rw [if_pos hd] at hok
    simp at hok
  rw [if_neg hd] at hok ⊢
  have hd1 : d.1 = true := by simpa using hd
  rw [hd1] at td
  rcases hwr : waitReady bus fuel d.2 with ⟨b, wp⟩
  rw [hwr] at hok
  cases b
  · simp at hok
  obtain ⟨n, tn⟩ := waitReady_events bus fuel d.2 (by rw [hwr])
  rw [hwr] at tn
  simp only at tn hok ⊢
  have tr2 : (SPI_ReceiveByte bus
      (SPI_SendByte bus SD_CRC_DUMMY_BYTE (SPI_SendByte bus SD_CRC_DUMMY_BYTE wp))).2.trace =
      wp.trace ++ [Event.tx [0xFF], Event.tx [0xFF], Event.rx (SPI_ReceiveByte bus
        (SPI_SendByte bus SD_CRC_DUMMY_BYTE (SPI_SendByte bus SD_CRC_DUMMY_BYTE wp))).1] := by
    simp [SPI_ReceiveByte, SPI_SendByte, HAL_SPI_Transmit, SD_CRC_DUMMY_BYTE]
  generalize SPI_ReceiveByte bus
    (SPI_SendByte bus SD_CRC_DUMMY_BYTE (SPI_SendByte bus SD_CRC_DUMMY_BYTE wp)) = r2
    at tr2 hok ⊢
  by_cases hrej : r2.1 &&& 0x1F ≠ SD_DATA_ACCEPTED_TOKEN
  · rw [if_pos hrej] at hok
    simp at hok
  rw [if_neg hrej] at hok ⊢
  rcases hbw : busyWait bus fuel r2.2 with ⟨b, w5⟩
  rw [hbw] at hok
  cases b
  · simp at hok
  obtain ⟨busy, last, tb, hz, hl⟩ := busyWait_events bus fuel r2.2 (by rw [hbw])
  rw [hbw] at tb
  simp only at tb ⊢
  refine ⟨pre, n, r2.1, busy, last, ?_, hhigh, ?_, by simpa [SD_DATA_ACCEPTED_TOKEN] using hrej,
    hz, hl⟩
  · simp only [SPI_SendByte, HAL_SPI_Transmit, sd_cs_deselect, HAL_GPIO_WritePin, tb, tr2, tn,
      td, tcmd, hpre, SD_DUMMY_BYTE, List.append_assoc]
    simp [CMD24, SD_APP_CMD_INDICATOR]
  · simp only [txBytes_append, txBytes_replicate_state]
    simp [txBytes]

theorem SD_WriteBlock_wire_sequence_witness :
    ∃ (pre : List Nat) (n r : Nat) (busy : List Nat) (last : Nat),
      (SD_WriteBlock scriptBus 5 7 (List.replicate 512 0xA5)
            (World.start [0xFF, 0x00, 0xE5, 0x00, 0x00, 0xFF])).2.trace =
          (World.start [0xFF, 0x00, 0xE5, 0x00, 0x00, 0xFF]).trace ++
            commandEvents
              [0x58, (7 >>> 24) &&& 0xFF, (7 >>> 16) &&& 0xFF, (7 >>> 8) &&& 0xFF, 7 &&& 0xFF,
                0x01] (pre ++ [0x00]) ++
            ([Event.tx [0xFE], Event.txDMA (List.replicate 512 0xA5) true] ++
              List.replicate n (Event.state false) ++
              [Event.state true, Event.tx [0xFF], Event.tx [0xFF]]) ++
            [Event.rx r] ++ busy.map Event.rx ++
            [Event.rx last, Event.cs GPIO_PIN_SET, Event.tx [0xFF]] ∧
        (∀ x ∈ pre, x &&& 0x80 ≠ 0) ∧
        txBytes ([Event.tx [0xFE], Event.txDMA (List.replicate 512 0xA5) true] ++
            List.replicate n (Event.state false) ++
            [Event.state true, Event.tx [0xFF], Event.tx [0xFF]]) =
          0xFE :: List.replicate 512 0xA5 ++ [0xFF, 0xFF] ∧
        r &&& 0x1F = 0x05 ∧ (∀ b ∈ busy, b = 0x00) ∧ last ≠ 0x00 :=
  SD_WriteBlock_wire_sequence scriptBus 5 7 (List.replicate 512 0xA5)
    (World.start [0xFF, 0x00, 0xE5, 0x00, 0x00, 0xFF]) (List.length_replicate _ _) (by decide)
    (by rfl)

/-! ## The driver against the card simulator -/

theorem prod_eq_of_fst {α β : Type} (x : α × β) (a : α) (h : x.1 = a) : x = (a, x.2) := by
  cases x
  cases h
  rfl

theorem simFeed_writeData (cfg : SimConfig) (st : Nat → List Nat) (blk pd : Nat)
    (buf data acc : List Nat) (hlen : acc.length + data.length ≤ 513)
    (hbytes : ∀ b ∈ data, b < 256) :
    simFeed ⟨cfg, st, true, Phase.writeData blk acc, pd, buf⟩ data =
      ⟨cfg, st, true, Phase.writeData blk (acc ++ data), pd, buf⟩ := by
  induction data generalizing acc with
  | nil => simp [simFeed]
  | cons b data ih =>
    simp only [List.length_cons] at hlen
    have hb : b % 256 = b := Nat.mod_eq_of_lt (hbytes b (List.mem_cons_self _ _))
    have hstep : simExchange ⟨cfg, st, true, Phase.writeData blk acc, pd, buf⟩ b =
        (0xFF, ⟨cfg, st, true, Phase.writeData blk (acc ++ [b]), pd, buf⟩) := by
      simp only [simExchange, cardStep, hb, if_true]
      rw [if_pos (by omega)]
    simp only [simFeed, hstep]
    rw [ih (acc ++ [b]) (by simp; omega) (fun x hx => hbytes x (List.mem_cons_of_mem _ hx))]
    simp

theorem simRead_readData (cfg : SimConfig) (st : Nat → List Nat) (pd : Nat)
    (buf d rest : List Nat) (hrest : rest ≠ []) :
    simRead ⟨cfg, st, true, Phase.readData (d ++ rest), pd, buf⟩ d.length =
      (d, ⟨cfg, st, true, Phase.readData rest, pd, buf⟩) := by
  induction d with
  | nil => simp [simRead]
  | cons b d ih =>
    have hstep : simExchange ⟨cfg, st, true, Phase.readData (b :: d ++ rest), pd, buf⟩ 0xFF =
        (b, ⟨cfg, st, true, Phase.readData (d ++ rest), pd, buf⟩) := by
      simp [simExchange, cardStep, hrest]
    simp only [List.length_cons, simRead, hstep, ih]

theorem pollResponse_sim (cfg : SimConfig) (st : Nat → List Nat) (pd : Nat) (buf : List Nat)
    (r : Nat) (nx : Phase) (hr : r &&& 0x80 = 0) (hr256 : r < 256) (n m : Nat) (hn : n < m)
    (tr : List Event) :
    ∃ tr', pollResponse simBus m ⟨⟨cfg, st, true, Phase.respond n r nx, pd, buf⟩, tr⟩ =
      (r, ⟨⟨cfg, st, true, nx, pd, buf⟩, tr'⟩) := by
  induction n generalizing m tr with
  | zero =>
    obtain ⟨m, rfl⟩ : ∃ k, m = k + 1 := ⟨m - 1, by omega⟩
    have hstep : SPI_ReceiveByte simBus ⟨⟨cfg, st, true, Phase.respond 0 r nx, pd, buf⟩, tr⟩ =
        (r, ⟨⟨cfg, st, true, nx, pd, buf⟩, tr ++ [Event.rx r]⟩) := by
      simp [SPI_ReceiveByte, simBus, simExchange, cardStep, Nat.mod_eq_of_lt hr256]
    exact ⟨tr ++ [Event.rx r], by simp only [pollResponse, hstep, hr, if_true]⟩
  | succ n ih =>
    obtain ⟨m, rfl⟩ : ∃ k, m = k + 1 := ⟨m - 1, by omega⟩
    have hstep : SPI_ReceiveByte simBus
        ⟨⟨cfg, st, true, Phase.respond (n + 1) r nx, pd, buf⟩, tr⟩ =
        (0xFF, ⟨⟨cfg, st, true, Phase.respond n r nx, pd, buf⟩, tr ++ [Event.rx 0xFF]⟩) := by
      simp [SPI_ReceiveByte, simBus, simExchange, cardStep]
    obtain ⟨tr', h⟩ := ih m (by omega) (tr ++ [Event.rx 0xFF])
    refine ⟨tr', ?_⟩
    simp only [pollResponse, hstep]
    rw [if_neg (by decide), h]

theorem waitToken_sim (cfg : SimConfig) (st : Nat → List Nat) (blk pd : Nat) (buf : List Nat)
    (n m : Nat) (hn : n < m) (tr : List Event) :
    ∃ tr', waitToken simBus m ⟨⟨cfg, st, true, Phase.readWait n blk, pd, buf⟩, tr⟩ =
      ⟨⟨cfg, st, true, Phase.readData (st blk ++ [0xFF, 0xFF]), pd, buf⟩, tr'⟩ := by
  induction n generalizing m tr with
  | zero =>
    obtain ⟨m, rfl⟩ : ∃ k, m = k + 1 := ⟨m - 1, by omega⟩
    have hstep : SPI_ReceiveByte simBus ⟨⟨cfg, st, true, Phase.readWait 0 blk, pd, buf⟩, tr⟩ =
        (0xFE, ⟨⟨cfg, st, true, Phase.readData (st blk ++ [0xFF, 0xFF]), pd, buf⟩,
          tr ++ [Event.rx 0xFE]⟩) := by
      simp [SPI_ReceiveByte, simBus, simExchange, cardStep]
    exact ⟨tr ++ [Event.rx 0xFE], by simp only [waitToken, hstep, SD_START_BLOCK_TOKEN, if_true]⟩
  | succ n ih =>
    obtain ⟨m, rfl⟩ : ∃ k, m = k + 1 := ⟨m - 1, by omega⟩
    have hstep : SPI_ReceiveByte simBus
        ⟨⟨cfg, st, true, Phase.readWait (n + 1) blk, pd, buf⟩, tr⟩ =
        (0xFF, ⟨⟨cfg, st, true, Phase.readWait n blk, pd, buf⟩, tr ++ [Event.rx 0xFF]⟩) := by
      simp [SPI_ReceiveByte, simBus, simExchange, cardStep]
    obtain ⟨tr', h⟩ := ih m (by omega) (tr ++ [Event.rx 0xFF])
    refine ⟨tr', ?_⟩
    simp only [waitToken, hstep, SD_START_BLOCK_TOKEN]
    rw [if_neg (by decide), h]

theorem waitReady_sim (cfg : SimConfig) (st : Nat → List Nat) (sel : Bool) (ph : Phase)
    (buf : List Nat) (fuel k : Nat) (tr : List Event) :
    (k < fuel → ∃ tr', waitReady simBus fuel ⟨⟨cfg, st, sel, ph, k, buf⟩, tr⟩ =
        (true, ⟨⟨cfg, st, sel, ph, 0, buf⟩, tr'⟩)) ∧
      (fuel ≤ k → (waitReady simBus fuel ⟨⟨cfg, st, sel, ph, k, buf⟩, tr⟩).1 = false) := by
  induction fuel generalizing k tr with
  | zero => exact ⟨fun h => absurd h (Nat.not_lt_zero _), fun _ => rfl⟩
  | succ fuel ih =>
    rcases k with _ | k
    · refine ⟨fun _ => ⟨tr ++ [Event.state true], ?_⟩, fun h => absurd h (by omega)⟩
      simp [waitReady, HAL_SPI_GetState, simBus]
    · have hstep : HAL_SPI_GetState simBus ⟨⟨cfg, st, sel, ph, k + 1, buf⟩, tr⟩ =
          (false, ⟨⟨cfg, st, sel, ph, k, buf⟩, tr ++ [Event.state false]⟩) := by
        simp [HAL_SPI_GetState, simBus]
      simp only [waitReady, hstep, Bool.false_eq_true, if_false]
      exact ⟨fun h => (ih k _).1 (by omega), fun h => (ih k _).2 (by omega)⟩

theorem busyWait_sim (cfg : SimConfig) (st : Nat → List Nat) (pd : Nat) (buf : List Nat)
    (fuel n : Nat) (tr : List Event) :
    (n < fuel → ∃ tr', busyWait simBus fuel ⟨⟨cfg, st, true, Phase.busy n, pd, buf⟩, tr⟩ =
        (true, ⟨⟨cfg, st, true, Phase.idle [], pd, buf⟩, tr'⟩)) ∧
      (fuel ≤ n → (busyWait simBus fuel ⟨⟨cfg, st, true, Phase.busy n, pd, buf⟩, tr⟩).1 =
        false) := by
  induction fuel generalizing n tr with
  | zero => exact ⟨fun h => absurd h (Nat.not_lt_zero _), fun _ => rfl⟩
  | succ fuel ih =>
    rcases n with _ | n
    · have hstep : SPI_ReceiveByte simBus ⟨⟨cfg, st, true, Phase.busy 0, pd, buf⟩, tr⟩ =
          (0xFF, ⟨⟨cfg, st, true, Phase.idle [], pd, buf⟩, tr ++ [Event.rx 0xFF]⟩) := by
        simp [SPI_ReceiveByte, simBus, simExchange, cardStep]
      refine ⟨fun _ => ⟨tr ++ [Event.rx 0xFF], ?_⟩, fun h => absurd h (by omega)⟩
      simp only [busyWait, hstep]
      rw [if_neg (by decide)]
    · have hstep : SPI_ReceiveByte simBus ⟨⟨cfg, st, true, Phase.busy (n + 1), pd, buf⟩, tr⟩ =
          (0x00, ⟨⟨cfg, st, true, Phase.busy n, pd, buf⟩, tr ++ [Event.rx 0x00]⟩) := by
        simp [SPI_ReceiveByte, simBus, simExchange, cardStep]
      simp only [busyWait, hstep, if_true]
      exact ⟨fun h => (ih n _).1 (by omega), fun h => (ih n _).2 (by omega)⟩

theorem commandFrame_argument (cmd arg crc : Nat) (harg : arg < 2 ^ 32) :
    (commandFrame cmd arg crc).getD 1 0 * 2 ^ 24 + (commandFrame cmd arg crc).getD 2 0 * 2 ^ 16 +
      (commandFrame cmd arg crc).getD 3 0 * 2 ^ 8 + (commandFrame cmd arg crc).getD 4 0 = arg := by
  simp only [commandFrame, List.getD_cons_succ, List.getD_cons_zero, Nat.mod_eq_of_lt harg,
    Nat.shiftRight_eq_div_pow]
  omega

theorem decodeCommand_CMD24 (cfg : SimConfig) (arg crc : Nat) (harg : arg < 2 ^ 32) :
    decodeCommand cfg (commandFrame CMD24 arg crc) =
      Phase.respond cfg.ncr 0x00 (Phase.writeWait arg) := by
  simp only [decodeCommand, commandFrame_argument CMD24 arg crc harg]
  simp [commandFrame, CMD24]

theorem decodeCommand_CMD17 (cfg : SimConfig) (arg crc : Nat) (harg : arg < 2 ^ 32) :
    decodeCommand cfg (commandFrame CMD17 arg crc) =
      Phase.respond cfg.ncr 0x00 (Phase.readWait cfg.tokenDelay arg) := by
  simp only [decodeCommand, commandFrame_argument CMD17 arg crc harg]
  simp [commandFrame, CMD17]

/-- An idle card has decoded the frame once `SD_SendCommand` has sent it. -/
theorem afterFrame_sim (cfg : SimConfig) (st : Nat → List Nat) (sel : Bool) (pd : Nat)
    (buf : List Nat) (tr : List Event) (cmd arg crc : Nat)
    (hstart : (cmd % 256) &&& 0xC0 = 0x40) :
    ∃ tr', afterFrame simBus cmd arg crc ⟨⟨cfg, st, sel, Phase.idle [], pd, buf⟩, tr⟩ =
      ⟨⟨cfg, st, true, decodeCommand cfg (commandFrame cmd arg crc), pd, buf⟩, tr'⟩ := by
  refine ⟨tr ++ [Event.cs GPIO_PIN_RESET, Event.tx [0xFF],
    Event.tx (commandFrame cmd arg crc)], ?_⟩
  have hsel : sd_cs_select simBus ⟨⟨cfg, st, sel, Phase.idle [], pd, buf⟩, tr⟩ =
      ⟨⟨cfg, st, true, Phase.idle [], pd, buf⟩, tr ++ [Event.cs GPIO_PIN_RESET]⟩ := by
    simp [sd_cs_select, HAL_GPIO_WritePin, simBus]
  have hfill : SPI_SendByte simBus SD_DUMMY_BYTE
      ⟨⟨cfg, st, true, Phase.idle [], pd, buf⟩, tr ++ [Event.cs GPIO_PIN_RESET]⟩ =
      ⟨⟨cfg, st, true, Phase.idle [], pd, buf⟩,
        tr ++ [Event.cs GPIO_PIN_RESET] ++ [Event.tx [0xFF]]⟩ := by
    have hff : (255 : Nat) &&& 192 = 192 := by decide
    simp [SPI_SendByte, HAL_SPI_Transmit, simBus, simFeed, simExchange, cardStep, SD_DUMMY_BYTE,
      hff]
  have hframe : simFeed ⟨cfg, st, true, Phase.idle [], pd, buf⟩ (commandFrame cmd arg crc) =
      ⟨cfg, st, true, decodeCommand cfg (commandFrame cmd arg crc), pd, buf⟩ := by
    simp [commandFrame, simFeed, simExchange, cardStep, hstart]
  simp only [afterFrame, hsel, hfill, HAL_SPI_Transmit]
  have htake : (commandFrame cmd arg crc).take SD_CMD_LENGTH = commandFrame cmd arg crc := rfl
  simp only [htake]
  show (⟨simFeed _ _, _⟩ : World SimCard) = _
  rw [hframe]
  simp

theorem SD_SendCommand_sim (cfg : SimConfig) (st : Nat → List Nat) (sel : Bool) (pd : Nat)
    (buf : List Nat) (tr : List Event) (cmd arg crc : Nat) (nx : Phase)
    (hstart : (cmd % 256) &&& 0xC0 = 0x40) (hncr : cfg.ncr < SD_CMD_RESPONSE_ATTEMPTS)
    (hdec : decodeCommand cfg (commandFrame cmd arg crc) = Phase.respond cfg.ncr 0x00 nx) :
    ∃ tr', SD_SendCommand simBus cmd arg crc ⟨⟨cfg, st, sel, Phase.idle [], pd, buf⟩, tr⟩ =
      (0x00, ⟨⟨cfg, st, true, nx, pd, buf⟩, tr'⟩) := by
  obtain ⟨tr1, h1⟩ := afterFrame_sim cfg st sel pd buf tr cmd arg crc hstart
  rw [SD_SendCommand_eq, h1, hdec]
  exact pollResponse_sim cfg st pd buf 0x00 nx (by decide) (by decide) cfg.ncr _ hncr tr1

/-- `SD_WriteBlock` against the simulator, started with the card idle: with
enough fuel for the two unbounded waits it returns `SDCARD_OK` and the block
is stored; with less it has not returned. -/
theorem SD_WriteBlock_sim (cfg : SimConfig) (st : Nat → List Nat) (sel : Bool) (pd : Nat)
    (buf : List Nat) (tr : List Event) (i fuel : Nat) (p : List Nat)
    (hncr : cfg.ncr < SD_CMD_RESPONSE_ATTEMPTS) (hi : i < 2 ^ 32) (hlen : p.length = 512)
    (hbytes : ∀ b ∈ p, b < 256) :
    (cfg.dmaPolls < fuel ∧ cfg.busyLen < fuel →
        ∃ tr', SD_WriteBlock simBus fuel i p ⟨⟨cfg, st, sel, Phase.idle [], pd, buf⟩, tr⟩ =
          (some SDCARD_OK, ⟨⟨cfg, Function.update st i p, false, Phase.idle [], 0, buf⟩, tr'⟩)) ∧
      (¬ (cfg.dmaPolls < fuel ∧ cfg.busyLen < fuel) →
        (SD_WriteBlock simBus fuel i p ⟨⟨cfg, st, sel, Phase.idle [], pd, buf⟩, tr⟩).1 = none) := by
  obtain ⟨tr1, hcmd⟩ := SD_SendCommand_sim cfg st sel pd buf tr CMD24 i SD_APP_CMD_INDICATOR
    (Phase.writeWait i) (by decide) hncr (decodeCommand_CMD24 cfg i _ hi)
  have htok : SPI_SendByte simBus SD_START_BLOCK_TOKEN
      ⟨⟨cfg, st, true, Phase.writeWait i, pd, buf⟩, tr1⟩ =
      ⟨⟨cfg, st, true, Phase.writeData i [], pd, buf⟩, tr1 ++ [Event.tx [0xFE]]⟩ := by
    simp [SPI_SendByte, HAL_SPI_Transmit, simBus, simFeed, simExchange, cardStep,
      SD_START_BLOCK_TOKEN]
  have hdma : HAL_SPI_Transmit_DMA simBus p SD_BLOCK_SIZE
      ⟨⟨cfg, st, true, Phase.writeData i [], pd, buf⟩, tr1 ++ [Event.tx [0xFE]]⟩ =
      (true, ⟨⟨cfg, st, true, Phase.writeData i p, cfg.dmaPolls, buf⟩,
        tr1 ++ [Event.tx [0xFE]] ++ [Event.txDMA p true]⟩) := by
    have htake : p.take SD_BLOCK_SIZE = p := List.take_of_length_le (le_of_eq hlen)
    have hfeed := simFeed_writeData cfg st i pd buf p [] (by simp [hlen]) hbytes
    simp only [HAL_SPI_Transmit_DMA, htake, simBus, hfeed, List.nil_append]
  have hcrc : ∀ t : List Event,
      SPI_SendByte simBus SD_CRC_DUMMY_BYTE (SPI_SendByte simBus SD_CRC_DUMMY_BYTE
        ⟨⟨cfg, st, true, Phase.writeData i p, 0, buf⟩, t⟩) =
      ⟨⟨cfg, Function.update st i p, true, Phase.writeResp, 0, buf⟩,
        t ++ [Event.tx [0xFF]] ++ [Event.tx [0xFF]]⟩ := by
    intro t
    have htake : (p ++ [0xFF]).take 512 = p := by
      rw [List.take_append_of_le_length (le_of_eq hlen.symm)]
      exact List.take_of_length_le (le_of_eq hlen)
    simp [SPI_SendByte, HAL_SPI_Transmit, simBus, simFeed, simExchange, cardStep,
      SD_CRC_DUMMY_BYTE, hlen, htake]
  have hresp : ∀ t : List Event,
      SPI_ReceiveByte simBus ⟨⟨cfg, Function.update st i p, true, Phase.writeResp, 0, buf⟩, t⟩ =
      (0xE5, ⟨⟨cfg, Function.update st i p, true, Phase.busy cfg.busyLen, 0, buf⟩,
        t ++ [Event.rx 0xE5]⟩) := by
    intro t
    simp [SPI_ReceiveByte, simBus, simExchange, cardStep]
  have hfin : ∀ t : List Event,
      SPI_SendByte simBus SD_DUMMY_BYTE (sd_cs_deselect simBus
        ⟨⟨cfg, Function.update st i p, true, Phase.idle [], 0, buf⟩, t⟩) =
      ⟨⟨cfg, Function.update st i p, false, Phase.idle [], 0, buf⟩,
        t ++ [Event.cs GPIO_PIN_SET] ++ [Event.tx [0xFF]]⟩ := by
    intro t
    simp [SPI_SendByte, HAL_SPI_Transmit, sd_cs_deselect, HAL_GPIO_WritePin, simBus, simFeed,
      simExchange, SD_DUMMY_BYTE]
  have hacc : (0xE5 : Nat) &&& 0x1F = SD_DATA_ACCEPTED_TOKEN := by decide
  simp only [SD_WriteBlock, hcmd, htok, hdma, SD_READY_STATE, ne_eq, not_true_eq_false,
    if_false, Bool.true_eq_false]
  constructor
  · rintro ⟨hd, hb⟩
    obtain ⟨tr2, hwr⟩ := (waitReady_sim cfg st true (Phase.writeData i p) buf fuel cfg.dmaPolls
      (tr1 ++ [Event.tx [0xFE]] ++ [Event.txDMA p true])).1 hd
    obtain ⟨tr3, hbw⟩ := (busyWait_sim cfg (Function.update st i p) 0 buf fuel cfg.busyLen
      (tr2 ++ [Event.tx [0xFF]] ++ [Event.tx [0xFF]] ++ [Event.rx 0xE5])).1 hb
    refine ⟨tr3 ++ [Event.cs GPIO_PIN_SET] ++ [Event.tx [0xFF]], ?_⟩
    simp only [hwr, hcrc, hresp, hacc, not_true_eq_false, if_false, hbw, hfin]
  · intro hnot
    by_cases hd : cfg.dmaPolls < fuel
    · have hb : fuel ≤ cfg.busyLen := by
        by_contra hb
        exact hnot ⟨hd, by omega⟩
      obtain ⟨tr2, hwr⟩ := (waitReady_sim cfg st true (Phase.writeData i p) buf fuel
        cfg.dmaPolls (tr1 ++ [Event.tx [0xFE]] ++ [Event.txDMA p true])).1 hd
      have hbw := (busyWait_sim cfg (Function.update st i p) 0 buf fuel cfg.busyLen
        (tr2 ++ [Event.tx [0xFF]] ++ [Event.tx [0xFF]] ++ [Event.rx 0xE5])).2 hb
      simp only [hwr, hcrc, hresp, hacc, not_true_eq_false, if_false]
      rcases hres : busyWait simBus fuel
        ⟨⟨cfg, Function.update st i p, true, Phase.busy cfg.busyLen, 0, buf⟩,
          tr2 ++ [Event.tx [0xFF]] ++ [Event.tx [0xFF]] ++ [Event.rx 0xE5]⟩ with ⟨b, w5⟩
      rw [hres] at hbw
      simp only at hbw
      subst hbw
      rfl
    · have hwr := (waitReady_sim cfg st true (Phase.writeData i p) buf fuel cfg.dmaPolls
        (tr1 ++ [Event.tx [0xFE]] ++ [Event.txDMA p true])).2 (by omega)
      rcases hres : waitReady simBus fuel
        ⟨⟨cfg, st, true, Phase.writeData i p, cfg.dmaPolls, buf⟩,
          tr1 ++ [Event.tx [0xFE]] ++ [Event.txDMA p true]⟩ with ⟨b, w2⟩
      rw [hres] at hwr
      simp only at hwr
      subst hwr
      rfl

/-- `SD_ReadBlock` against the simulator, started with the card idle: it
returns `SDCARD_OK` with the stored block in the buffer. -/
theorem SD_ReadBlock_sim (cfg : SimConfig) (st : Nat → List Nat) (sel : Bool) (pd : Nat)
    (buf : List Nat) (tr : List Event) (i fuel : Nat)
    (hncr : cfg.ncr < SD_CMD_RESPONSE_ATTEMPTS) (htoken : cfg.tokenDelay < SD_DATA_TOKEN_WAIT)
    (hi : i < 2 ^ 32) (hblk : (st i).length = 512) (hfuel : cfg.dmaPolls < fuel) :
    ∃ tr', SD_ReadBlock simBus fuel i ⟨⟨cfg, st, sel, Phase.idle [], pd, buf⟩, tr⟩ =
      (some SDCARD_OK, ⟨⟨cfg, st, false, Phase.readData [0xFF], 0, st i⟩, tr'⟩) := by
  obtain ⟨tr1, hcmd⟩ := SD_SendCommand_sim cfg st sel pd buf tr CMD17 i SD_APP_CMD_INDICATOR
    (Phase.readWait cfg.tokenDelay i) (by decide) hncr (decodeCommand_CMD17 cfg i _ hi)
  obtain ⟨tr2, hwait⟩ := waitToken_sim cfg st i pd buf cfg.tokenDelay SD_DATA_TOKEN_WAIT
    htoken tr1
  have hdma : HAL_SPI_Receive_DMA simBus SD_BLOCK_SIZE
      ⟨⟨cfg, st, true, Phase.readData (st i ++ [0xFF, 0xFF]), pd, buf⟩, tr2⟩ =
      (true, ⟨⟨cfg, st, true, Phase.readData [0xFF, 0xFF], cfg.dmaPolls, st i⟩,
        tr2 ++ [Event.rxDMA SD_BLOCK_SIZE true]⟩) := by
    have hread := simRead_readData cfg st pd buf (st i) [0xFF, 0xFF] (by simp)
    rw [hblk] at hread
    simp only [HAL_SPI_Receive_DMA, simBus, SD_BLOCK_SIZE, hread]
  obtain ⟨tr3, hwr⟩ := (waitReady_sim cfg st true (Phase.readData [0xFF, 0xFF]) (st i) fuel
    cfg.dmaPolls (tr2 ++ [Event.rxDMA SD_BLOCK_SIZE true])).1 hfuel
  have hfin : SPI_SendByte simBus SD_DUMMY_BYTE (sd_cs_deselect simBus (SPI_ReceiveByte simBus
      ⟨⟨cfg, st, true, Phase.readData [0xFF, 0xFF], 0, st i⟩, tr3⟩).2) =
      ⟨⟨cfg, st, false, Phase.readData [0xFF], 0, st i⟩,
        tr3 ++ [Event.rx 0xFF] ++ [Event.cs GPIO_PIN_SET] ++ [Event.tx [0xFF]]⟩ := by
    simp [SPI_SendByte, HAL_SPI_Transmit, sd_cs_deselect, HAL_GPIO_WritePin, SPI_ReceiveByte,
      simBus, simFeed, simExchange, cardStep, SD_DUMMY_BYTE]
  refine ⟨tr3 ++ [Event.rx 0xFF] ++ [Event.cs GPIO_PIN_SET] ++ [Event.tx [0xFF]], ?_⟩
  simp only [SD_ReadBlock, hcmd, hwait, hdma, hwr, hfin, SD_READY_STATE, ne_eq,
    not_true_eq_false, if_false, Bool.true_eq_false]

/-- C1: over the card simulator with persistent storage, started with the
card idle, for every block index `i` and every 512-byte payload `p`: if
`SD_WriteBlock i p` returns `SDCARD_OK`, then `SD_ReadBlock i` called next
returns `SDCARD_OK` and leaves exactly `p` in the buffer.  The simulator answers
within the driver's budgets (`ncr` below the ten response attempts, the token
within the token wait); `fuel'` only has to cover the DMA completion polls. -/
theorem SD_write_then_read_round_trip (cfg : SimConfig) (st : Nat → List Nat) (sel : Bool)
    (pd : Nat) (buf : List Nat) (tr : List Event) (i : Nat) (p : List Nat) (fuel fuel' : Nat)
    (w' : World SimCard)
    (hncr : cfg.ncr < SD_CMD_RESPONSE_ATTEMPTS) (htoken : cfg.tokenDelay < SD_DATA_TOKEN_WAIT)
    (hi : i < 2 ^ 32) (hlen : p.length = 512) (hbytes : ∀ b ∈ p, b < 256)
    (hfuel : cfg.dmaPolls < fuel')
    (hw : SD_WriteBlock simBus fuel i p ⟨⟨cfg, st, sel, Phase.idle [], pd, buf⟩, tr⟩ =
      (some SDCARD_OK, w')) :
    ∃ w'' : World SimCard,
      SD_ReadBlock simBus fuel' i w' = (some SDCARD_OK, w'') ∧ simBus.buffer w''.dev = p := by
  have hsim := SD_WriteBlock_sim cfg st sel pd buf tr i fuel p hncr hi hlen hbytes
  by_cases hf : cfg.dmaPolls < fuel ∧ cfg.busyLen < fuel
  · obtain ⟨tr1, hrun⟩ := hsim.1 hf
    rw [hrun] at hw
    simp only [Prod.mk.injEq, true_and] at hw
    subst hw
    obtain ⟨tr2, hread⟩ := SD_ReadBlock_sim cfg (Function.update st i p) false 0 buf tr1 i fuel'
      hncr htoken hi (by simp [hlen]) hfuel
    refine ⟨_, hread, ?_⟩
    simp [simBus]
  · have hnone := hsim.2 hf
    rw [hw] at hnone
    cases hnone

theorem SD_write_then_read_round_trip_witness :
    ∃ w'' : World SimCard,
      SD_ReadBlock simBus 2 7
          (SD_WriteBlock simBus 5 7 (List.replicate 512 0xA5)
            ⟨⟨⟨1, 2, 3, 1⟩, fun _ => List.replicate 512 0x00, false, Phase.idle [], 0, []⟩,
              []⟩).2 =
        (some SDCARD_OK, w'') ∧
      simBus.buffer w''.dev = List.replicate 512 0xA5 :=
  have hbytes : ∀ b ∈ List.replicate 512 0xA5, b < 256 :=
    fun b hb => by rw [List.eq_of_mem_replicate hb]; decide
  have hrun : (SD_WriteBlock simBus 5 7 (List.replicate 512 0xA5)
      ⟨⟨⟨1, 2, 3, 1⟩, fun _ => List.replicate 512 0x00, false, Phase.idle [], 0, []⟩,
        []⟩).1 = some SDCARD_OK := by
    obtain ⟨_, h⟩ := (SD_WriteBlock_sim ⟨1, 2, 3, 1⟩ (fun _ => List.replicate 512 0x00) false
      0 [] [] 7 5 (List.replicate 512 0xA5) (by decide) (by decide)
      (List.length_replicate _ _) hbytes).1 ⟨by decide, by decide⟩
    rw [h]
  SD_write_then_read_round_trip ⟨1, 2, 3, 1⟩ (fun _ => List.replicate 512 0x00) false 0 [] []
    7 (List.replicate 512 0xA5) 5 2
    (SD_WriteBlock simBus 5 7 (List.replicate 512 0xA5)
      ⟨⟨⟨1, 2, 3, 1⟩, fun _ => List.replicate 512 0x00, false, Phase.idle [], 0, []⟩, []⟩).2
    (by decide) (by decide) (by decide) (List.length_replicate _ _) hbytes (by decide)
    (prod_eq_of_fst _ _ hrun)

/-! ## Chip-select at return -/

theorem csAsserted_append (start : Bool) (a b : List Event) :
    csAsserted start (a ++ b) = csAsserted (csAsserted start a) b := by
  induction a generalizing start with
  | nil => rfl
  | cons e a ih => cases e <;> simp [csAsserted, ih]

theorem csAsserted_map_rx (start : Bool) (rxs : List Nat) :
    csAsserted start (rxs.map Event.rx) = start := by
  induction rxs with
  | nil => rfl
  | cons b rxs ih => simpa [csAsserted] using ih

/-- After `SD_SendCommand` chip-select is asserted, whatever it was before. -/
theorem csAsserted_SD_SendCommand (bus : Bus σ) (cmd arg crc : Nat) (w : World σ)
    (start : Bool) :
    csAsserted start (SD_SendCommand bus cmd arg crc w).2.trace = true := by
  obtain ⟨rxs, htr, _⟩ := SD_SendCommand_events bus cmd arg crc w
  rw [htr, csAsserted_append, commandEvents, csAsserted_append, csAsserted_map_rx]
  rfl

/-- Every error return of `SD_Init` leaves chip-select asserted. -/
theorem SD_Init_error_leaves_selected (bus : Bus σ) (fuel : Nat) (w : World σ) (start : Bool)
    (herr : (SD_Init bus fuel w).1 = some SDCARD_ERROR) :
    csAsserted start (SD_Init bus fuel w).2.trace = true := by
  simp only [SD_Init] at herr ⊢
  by_cases h0 : (SD_SendCommand bus CMD0 0 SD_CMD0_CRC
      (sendClocks bus SD_INIT_CLOCK_CYCLES (sd_cs_deselect bus w))).1 ≠ SD_IDLE_STATE
  · rw [if_pos h0]
    exact csAsserted_SD_SendCommand _ _ _ _ _ _
  rw [if_neg h0] at herr ⊢
  by_cases h8 : (SD_SendCommand bus CMD8 SD_CMD8_CHECK_PATTERN SD_CMD8_CRC
      (SD_SendCommand bus CMD0 0 SD_CMD0_CRC
        (sendClocks bus SD_INIT_CLOCK_CYCLES (sd_cs_deselect bus w))).2).1 ≠ SD_IDLE_STATE
  · rw [if_pos h8]
    exact csAsserted_SD_SendCommand _ _ _ _ _ _
  rw [if_neg h8] at herr ⊢
  rcases hl : opCondLoop bus fuel (SD_SendCommand bus CMD8 SD_CMD8_CHECK_PATTERN SD_CMD8_CRC
      (SD_SendCommand bus CMD0 0 SD_CMD0_CRC
        (sendClocks bus SD_INIT_CLOCK_CYCLES (sd_cs_deselect bus w))).2).2 with ⟨b, w3⟩
  rw [hl] at herr
  cases b
  · simp at herr
  simp only at herr ⊢
  by_cases h58 : (SD_SendCommand bus CMD58 0 SD_APP_CMD_INDICATOR w3).1 ≠ SD_READY_STATE
  · rw [if_pos h58]
    exact csAsserted_SD_SendCommand _ _ _ _ _ _
  · rw [if_neg h58] at herr
    simp at herr

/-- A successful `SD_Init` releases chip-select before it returns. -/
theorem SD_Init_ok_deselects (bus : Bus σ) (fuel : Nat) (w : World σ) (start : Bool)
    (hok : (SD_Init bus fuel w).1 = some SDCARD_OK) :
    csAsserted start (SD_Init bus fuel w).2.trace = false := by
  simp only [SD_Init] at hok ⊢
  by_cases h0 : (SD_SendCommand bus CMD0 0 SD_CMD0_CRC
      (sendClocks bus SD_INIT_CLOCK_CYCLES (sd_cs_deselect bus w))).1 ≠ SD_IDLE_STATE
  · rw [if_pos h0] at hok
    simp at hok
  rw [if_neg h0] at hok ⊢
  by_cases h8 : (SD_SendCommand bus CMD8 SD_CMD8_CHECK_PATTERN SD_CMD8_CRC
      (SD_SendCommand bus CMD0 0 SD_CMD0_CRC
        (sendClocks bus SD_INIT_CLOCK_CYCLES (sd_cs_deselect bus w))).2).1 ≠ SD_IDLE_STATE
  · rw [if_pos h8] at hok
    simp at hok
  rw [if_neg h8] at hok ⊢
  rcases hl : opCondLoop bus fuel (SD_SendCommand bus CMD8 SD_CMD8_CHECK_PATTERN SD_CMD8_CRC
      (SD_SendCommand bus CMD0 0 SD_CMD0_CRC
        (sendClocks bus SD_INIT_CLOCK_CYCLES (sd_cs_deselect bus w))).2).2 with ⟨b, w3⟩
  rw [hl] at hok
  cases b
  · simp at hok
  simp only at hok ⊢
  by_cases h58 : (SD_SendCommand bus CMD58 0 SD_APP_CMD_INDICATOR w3).1 ≠ SD_READY_STATE
  · rw [if_pos h58] at hok
    simp at hok
  · rw [if_neg h58]
    simp only [SPI_SendByte, HAL_SPI_Transmit, sd_cs_deselect, HAL_GPIO_WritePin,
      csAsserted_append]
    rfl

theorem csAsserted_sd_cs_deselect (bus : Bus σ) (w : World σ) (start : Bool) :
    csAsserted start (sd_cs_deselect bus w).trace = false := by
  simp only [sd_cs_deselect, HAL_GPIO_WritePin, csAsserted_append]
  rfl

theorem csAsserted_SPI_SendByte (bus : Bus σ) (data : Nat) (w : World σ) (start : Bool) :
    csAsserted start (SPI_SendByte bus data w).trace = csAsserted start w.trace := by
  simp only [SPI_SendByte, HAL_SPI_Transmit, csAsserted_append]
  rfl

/-- Every return of `SD_ReadBlock`, success or error, comes after chip-select
has been released. -/
theorem SD_ReadBlock_deselects (bus : Bus σ) (fuel blockAddr : Nat) (w : World σ)
    (start : Bool) (st : sdcard_status_t)
    (hret : (SD_ReadBlock bus fuel blockAddr w).1 = some st) :
    csAsserted start (SD_ReadBlock bus fuel blockAddr w).2.trace = false := by
  simp only [SD_ReadBlock] at hret ⊢
  split
  · exact csAsserted_sd_cs_deselect _ _ _
  · rename_i hc
    rw [if_neg hc] at hret
    split
    · exact csAsserted_sd_cs_deselect _ _ _
    · rename_i hd
      rw [if_neg hd] at hret
      rcases hwr : waitReady bus fuel (HAL_SPI_Receive_DMA bus SD_BLOCK_SIZE
        (waitToken bus SD_DATA_TOKEN_WAIT
          (SD_SendCommand bus CMD17 blockAddr SD_APP_CMD_INDICATOR w).2)).2 with ⟨b, w2⟩
      rw [hwr] at hret
      cases b
      · simp at hret
      · simp only
        rw [csAsserted_SPI_SendByte]
        exact csAsserted_sd_cs_deselect _ _ _

/-- Every return of `SD_WriteBlock`, success or error, comes after chip-select
has been released. -/
theorem SD_WriteBlock_deselects (bus : Bus σ) (fuel blockAddr : Nat) (buffer : List Nat)
    (w : World σ) (start : Bool) (st : sdcard_status_t)
    (hret : (SD_WriteBlock bus fuel blockAddr buffer w).1 = some st) :
    csAsserted start (SD_WriteBlock bus fuel blockAddr buffer w).2.trace = false := by
  simp only [SD_WriteBlock] at hret ⊢
  split
  · exact csAsserted_sd_cs_deselect _ _ _
  · rename_i hc
    rw [if_neg hc] at hret
    split
    · exact csAsserted_sd_cs_deselect _ _ _
    · rename_i hd
      rw [if_neg hd] at hret
      rcases hwr : waitReady bus fuel (HAL_SPI_Transmit_DMA bus buffer SD_BLOCK_SIZE
        (SPI_SendByte bus SD_START_BLOCK_TOKEN
          (SD_SendCommand bus CMD24 blockAddr SD_APP_CMD_INDICATOR w).2)).2 with ⟨b, w2⟩
      rw [hwr] at hret
      cases b
      · simp at hret
      · simp only at hret ⊢
        split
        · exact csAsserted_sd_cs_deselect _ _ _
        · rename_i hrej
          rw [if_neg hrej] at hret
          rcases hbw : busyWait bus fuel (SPI_ReceiveByte bus
            (SPI_SendByte bus SD_CRC_DUMMY_BYTE (SPI_SendByte bus SD_CRC_DUMMY_BYTE w2))).2
            with ⟨b, w5⟩
          rw [hbw] at hret
          cases b
          · simp at hret
          · simp only
            rw [csAsserted_SPI_SendByte]
            exact csAsserted_sd_cs_deselect _ _ _

/-- C11 (the code at the failing input): with no card answering (every
received byte is `0xFF`), `SD_Init` returns `SDCARD_ERROR` at the reset step
and chip-select, asserted by `SD_SendCommand`, is still asserted at that
return. -/
theorem SD_Init_error_return_keeps_chip_select :
    (SD_Init scriptBus 1 (World.start [])).1 = some SDCARD_ERROR ∧
      csAsserted false (SD_Init scriptBus 1 (World.start [])).2.trace = true := by
  decide

/-! ## No gating on card state -/

theorem SPI_SendByte_extends (bus : Bus σ) (data : Nat) (w : World σ) :
    w.trace <+: (SPI_SendByte bus data w).trace :=
  List.prefix_append _ _

theorem SPI_ReceiveByte_extends (bus : Bus σ) (w : World σ) :
    w.trace <+: (SPI_ReceiveByte bus w).2.trace :=
  List.prefix_append _ _

theorem sd_cs_deselect_extends (bus : Bus σ) (w : World σ) :
    w.trace <+: (sd_cs_deselect bus w).trace :=
  List.prefix_append _ _

theorem waitToken_extends (bus : Bus σ) (n : Nat) (w : World σ) :
    w.trace <+: (waitToken bus n w).trace := by
  induction n generalizing w with
  | zero => exact List.prefix_refl _
  | succ n ih =>
    simp only [waitToken]
    split
    · exact SPI_ReceiveByte_extends bus w
    · exact (SPI_ReceiveByte_extends bus w).trans (ih _)

theorem waitReady_extends (bus : Bus σ) (fuel : Nat) (w : World σ) :
    w.trace <+: (waitReady bus fuel w).2.trace := by
  induction fuel generalizing w with
  | zero => exact List.prefix_refl _
  | succ fuel ih =>
    have hstep : w.trace <+: (HAL_SPI_GetState bus w).2.trace := List.prefix_append _ _
    simp only [waitReady]
    split
    · exact hstep
    · exact hstep.trans (ih _)

theorem busyWait_extends (bus : Bus σ) (fuel : Nat) (w : World σ) :
    w.trace <+: (busyWait bus fuel w).2.trace := by
  induction fuel generalizing w with
  | zero => exact List.prefix_refl _
  | succ fuel ih =>
    simp only [busyWait]
    split
    · exact (SPI_ReceiveByte_extends bus w).trans (ih _)
    · exact SPI_ReceiveByte_extends bus w

/-- Whatever `SD_ReadBlock` does, it does after its `SD_SendCommand`. -/
theorem SD_ReadBlock_extends (bus : Bus σ) (fuel blockAddr : Nat) (w : World σ) :
    (SD_SendCommand bus CMD17 blockAddr SD_APP_CMD_INDICATOR w).2.trace <+:
      (SD_ReadBlock bus fuel blockAddr w).2.trace := by
  have hd : ∀ v : World σ, v.trace <+: (HAL_SPI_Receive_DMA bus SD_BLOCK_SIZE v).2.trace :=
    fun v => List.prefix_append _ _
  have h1 := (waitToken_extends bus SD_DATA_TOKEN_WAIT
    (SD_SendCommand bus CMD17 blockAddr SD_APP_CMD_INDICATOR w).2).trans (hd _)
  simp only [SD_ReadBlock]
  split
  · exact sd_cs_deselect_extends _ _
  · split
    · exact h1.trans (sd_cs_deselect_extends _ _)
    · have h2 := h1.trans (waitReady_extends bus fuel _)
      rcases hwr : waitReady bus fuel (HAL_SPI_Receive_DMA bus SD_BLOCK_SIZE
        (waitToken bus SD_DATA_TOKEN_WAIT
          (SD_SendCommand bus CMD17 blockAddr SD_APP_CMD_INDICATOR w).2)).2 with ⟨b, w2⟩
      rw [hwr] at h2
      cases b
      · exact h2
      · exact ((h2.trans (SPI_ReceiveByte_extends bus w2)).trans
          (sd_cs_deselect_extends _ _)).trans (SPI_SendByte_extends _ _ _)

/-- Whatever `SD_WriteBlock` does, it does after its `SD_SendCommand`. -/
theorem SD_WriteBlock_extends (bus : Bus σ) (fuel blockAddr : Nat) (buffer : List Nat)
    (w : World σ) :
    (SD_SendCommand bus CMD24 blockAddr SD_APP_CMD_INDICATOR w).2.trace <+:
      (SD_WriteBlock bus fuel blockAddr buffer w).2.trace := by
  have hd : ∀ v : World σ,
      v.trace <+: (HAL_SPI_Transmit_DMA bus buffer SD_BLOCK_SIZE v).2.trace :=
    fun v => List.prefix_append _ _
  have h1 := (SPI_SendByte_extends bus SD_START_BLOCK_TOKEN
    (SD_SendCommand bus CMD24 blockAddr SD_APP_CMD_INDICATOR w).2).trans (hd _)
  simp only [SD_WriteBlock]
  split
  · exact sd_cs_deselect_extends _ _
  · split
    · exact h1.trans (sd_cs_deselect_extends _ _)
    · have h2 := h1.trans (waitReady_extends bus fuel _)
      rcases hwr : waitReady bus fuel (HAL_SPI_Transmit_DMA bus buffer SD_BLOCK_SIZE
        (SPI_SendByte bus SD_START_BLOCK_TOKEN
          (SD_SendCommand bus CMD24 blockAddr SD_APP_CMD_INDICATOR w).2)).2 with ⟨b, w2⟩
      rw [hwr] at h2
      cases b
      · exact h2
      · have h3 := ((h2.trans (SPI_SendByte_extends bus SD_CRC_DUMMY_BYTE w2)).trans
          (SPI_SendByte_extends bus SD_CRC_DUMMY_BYTE _)).trans (SPI_ReceiveByte_extends bus _)
        simp only
        split
        · exact h3.trans (sd_cs_deselect_extends _ _)
        · have h4 := h3.trans (busyWait_extends bus fuel _)
          rcases hbw : busyWait bus fuel (SPI_ReceiveByte bus
            (SPI_SendByte bus SD_CRC_DUMMY_BYTE (SPI_SendByte bus SD_CRC_DUMMY_BYTE w2))).2
            with ⟨b, w5⟩
          rw [hbw] at h4
          cases b
          · exact h4
          · exact (h4.trans (sd_cs_deselect_extends _ _)).trans (SPI_SendByte_extends _ _ _)

/-- C12 as stated fails: after an `SD_Init` that returned `SDCARD_ERROR` (the
bus answered `CMD0` with `0x00`), `SD_ReadBlock 7` transmits its `CMD17` frame
and, the bus answering `0x00` and the start-block token, returns `SDCARD_OK`. -/
theorem SD_ReadBlock_after_failed_init_not_gated :
    (SD_Init scriptBus 1 (World.start [0x00, 0x00, 0xFE])).1 = some SDCARD_ERROR ∧
      (SD_ReadBlock scriptBus 1 7
          (SD_Init scriptBus 1 (World.start [0x00, 0x00, 0xFE])).2).1 = some SDCARD_OK ∧
      framesOf ((SD_ReadBlock scriptBus 1 7
          (SD_Init scriptBus 1 (World.start [0x00, 0x00, 0xFE])).2).2.trace.drop
            (SD_Init scriptBus 1 (World.start [0x00, 0x00, 0xFE])).2.trace.length) =
        [[0x51, 0x00, 0x00, 0x00, 0x07, 0x01]] := by
  decide

/-- C12 (amended): the driver keeps no card state and does not gate block
operations.  From every world `w` (so also before any `SD_Init` and after one
that returned an error) `SD_ReadBlock` first sends its `CMD17` frame and
`SD_WriteBlock` its `CMD24` frame, with the block index as argument; each
returns `SDCARD_ERROR`, releasing chip-select, as soon as the status returned
for that frame is not `0x00`. -/
theorem block_operations_not_gated (bus : Bus σ) (fuel blockAddr : Nat) (buffer : List Nat)
    (w : World σ) :
    (∃ (rxs : List Nat) (rest : List Event),
        (SD_ReadBlock bus fuel blockAddr w).2.trace =
          w.trace ++
            commandEvents (commandFrame CMD17 blockAddr SD_APP_CMD_INDICATOR) rxs ++ rest) ∧
      ((SD_SendCommand bus CMD17 blockAddr SD_APP_CMD_INDICATOR w).1 ≠ SD_READY_STATE →
        SD_ReadBlock bus fuel blockAddr w =
          (some SDCARD_ERROR,
            sd_cs_deselect bus (SD_SendCommand bus CMD17 blockAddr SD_APP_CMD_INDICATOR w).2)) ∧
      (∃ (rxs : List Nat) (rest : List Event),
        (SD_WriteBlock bus fuel blockAddr buffer w).2.trace =
          w.trace ++
            commandEvents (commandFrame CMD24 blockAddr SD_APP_CMD_INDICATOR) rxs ++ rest) ∧
      ((SD_SendCommand bus CMD24 blockAddr SD_APP_CMD_INDICATOR w).1 ≠ SD_READY_STATE →
        SD_WriteBlock bus fuel blockAddr buffer w =
          (some SDCARD_ERROR,
            sd_cs_deselect bus (SD_SendCommand bus CMD24 blockAddr SD_APP_CMD_INDICATOR w).2)) := by
  refine ⟨?_, ?_, ?_, ?_⟩
  · obtain ⟨rxs, hcmd, _⟩ := SD_SendCommand_events bus CMD17 blockAddr SD_APP_CMD_INDICATOR w
    obtain ⟨rest, hrest⟩ := SD_ReadBlock_extends bus fuel blockAddr w
    exact ⟨rxs, rest, by rw [← hrest, hcmd]⟩
  · intro h
    simp only [SD_ReadBlock]
    rw [if_pos h]
  · obtain ⟨rxs, hcmd, _⟩ := SD_SendCommand_events bus CMD24 blockAddr SD_APP_CMD_INDICATOR w
    obtain ⟨rest, hrest⟩ := SD_WriteBlock_extends bus fuel blockAddr buffer w
    exact ⟨rxs, rest, by rw [← hrest, hcmd]⟩
  · intro h
    simp only [SD_WriteBlock]
    rw [if_pos h]

theorem block_operations_not_gated_witness :
    (∃ (rxs : List Nat) (rest : List Event),
        (SD_ReadBlock scriptBus 1 7
            (SD_Init scriptBus 1 (World.start [0x00, 0x04])).2).2.trace =
          (SD_Init scriptBus 1 (World.start [0x00, 0x04])).2.trace ++
            commandEvents (commandFrame CMD17 7 SD_APP_CMD_INDICATOR) rxs ++ rest) ∧
      SD_ReadBlock scriptBus 1 7 (SD_Init scriptBus 1 (World.start [0x00, 0x04])).2 =
        (some SDCARD_ERROR,
          sd_cs_deselect scriptBus (SD_SendCommand scriptBus CMD17 7 SD_APP_CMD_INDICATOR
            (SD_Init scriptBus 1 (World.start [0x00, 0x04])).2).2) :=
  have h := block_operations_not_gated scriptBus 1 7 []
    (SD_Init scriptBus 1 (World.start [0x00, 0x04])).2
  ⟨h.1, h.2.1 (by decide)⟩

/-! ## Checksum bytes of the two block transfers -/

theorem waitToken_events (bus : Bus σ) (n : Nat) (w : World σ) :
    ∃ toks : List Nat, toks.length ≤ n ∧
      (waitToken bus n w).trace = w.trace ++ toks.map Event.rx := by
  induction n generalizing w with
  | zero => exact ⟨[], by simp, by simp [waitToken]⟩
  | succ n ih =>
    simp only [waitToken]
    split
    · exact ⟨[(SPI_ReceiveByte bus w).1], by simp, rfl⟩
    · obtain ⟨toks, hlen, h⟩ := ih (SPI_ReceiveByte bus w).2
      refine ⟨(SPI_ReceiveByte bus w).1 :: toks, by simp [hlen], ?_⟩
      rw [h]
      simp [SPI_ReceiveByte]

theorem rxBytes_append (a b : List Event) : rxBytes (a ++ b) = rxBytes a ++ rxBytes b := by
  induction a with
  | nil => rfl
  | cons e a ih => cases e <;> simp [rxBytes, ih]

theorem rxBytes_replicate_state (n : Nat) (ready : Bool) :
    rxBytes (List.replicate n (Event.state ready)) = [] := by
  induction n with
  | zero => rfl
  | succ n ih => simpa [List.replicate_succ, rxBytes] using ih

/-- The events of a run of `SD_ReadBlock` that returns `SDCARD_OK`. -/
theorem SD_ReadBlock_ok_events (bus : Bus σ) (fuel blockAddr : Nat) (w : World σ)
    (hok : (SD_ReadBlock bus fuel blockAddr w).1 = some SDCARD_OK) :
    ∃ (pre toks : List Nat) (n c : Nat),
      (SD_ReadBlock bus fuel blockAddr w).2.trace =
          w.trace ++
            commandEvents (commandFrame CMD17 blockAddr SD_APP_CMD_INDICATOR) (pre ++ [0x00]) ++
            toks.map Event.rx ++ [Event.rxDMA SD_BLOCK_SIZE true] ++
            (List.replicate n (Event.state false) ++ [Event.state true, Event.rx c]) ++
            [Event.cs GPIO_PIN_SET, Event.tx [0xFF]] ∧
        (∀ x ∈ pre, x &&& 0x80 ≠ 0) ∧ toks.length ≤ SD_DATA_TOKEN_WAIT := by
  obtain ⟨rxs, tcmd, hst⟩ := SD_SendCommand_events bus CMD17 blockAddr SD_APP_CMD_INDICATOR w
  simp only [SD_ReadBlock] at hok ⊢
  generalize SD_SendCommand bus CMD17 blockAddr SD_APP_CMD_INDICATOR w = c at tcmd hst hok ⊢
  by_cases hc : c.1 ≠ SD_READY_STATE
  · rw [if_pos hc] at hok
    simp at hok
  rw [if_neg hc] at hok ⊢
  obtain ⟨pre, hpre, hhigh⟩ := hst (by simpa [SD_READY_STATE] using hc)
  obtain ⟨toks, htoks, ttok⟩ := waitToken_events bus SD_DATA_TOKEN_WAIT c.2
  have td : (HAL_SPI_Receive_DMA bus SD_BLOCK_SIZE (waitToken bus SD_DATA_TOKEN_WAIT c.2)).2.trace =
      (waitToken bus SD_DATA_TOKEN_WAIT c.2).trace ++ [Event.rxDMA SD_BLOCK_SIZE
        (HAL_SPI_Receive_DMA bus SD_BLOCK_SIZE (waitToken bus SD_DATA_TOKEN_WAIT c.2)).1] := rfl
  generalize HAL_SPI_Receive_DMA bus SD_BLOCK_SIZE (waitToken bus SD_DATA_TOKEN_WAIT c.2) = d
    at td hok ⊢
  by_cases hd : d.1 = false
  · rw [if_pos hd] at hok
    simp at hok
  rw [if_neg hd] at hok ⊢
  have hd1 : d.1 = true := by simpa using hd
  rw [hd1] at td
  rcases hwr : waitReady bus fuel d.2 with ⟨b, wp⟩
  rw [hwr] at hok
  cases b
  · simp at hok
  obtain ⟨n, tn⟩ := waitReady_events bus fuel d.2 (by rw [hwr])
  rw [hwr] at tn
  simp only at tn ⊢
  refine ⟨pre, toks, n, (SPI_ReceiveByte bus wp).1, ?_, hhigh, htoks⟩
  simp only [SPI_SendByte, HAL_SPI_Transmit, sd_cs_deselect, HAL_GPIO_WritePin, SPI_ReceiveByte,
    tn, td, ttok, tcmd, hpre, SD_DUMMY_BYTE, List.append_assoc]
  simp

/-- The events of a run of `SD_WriteBlock` that returns `SDCARD_OK`, up to the
reception of the data-response byte. -/
theorem SD_WriteBlock_ok_events_to_response (bus : Bus σ) (fuel blockAddr : Nat)
    (buffer : List Nat) (w : World σ) (hlen : buffer.length = 512)
    (hok : (SD_WriteBlock bus fuel blockAddr buffer w).1 = some SDCARD_OK) :
    ∃ (pre : List Nat) (n r : Nat) (rest : List Event),
      (SD_WriteBlock bus fuel blockAddr buffer w).2.trace =
          w.trace ++
            commandEvents (commandFrame CMD24 blockAddr SD_APP_CMD_INDICATOR) (pre ++ [0x00]) ++
            [Event.tx [0xFE], Event.txDMA buffer true] ++
            (List.replicate n (Event.state false) ++
              [Event.state true, Event.tx [0xFF], Event.tx [0xFF]]) ++
            Event.rx r :: rest := by
  obtain ⟨rxs, tcmd, hst⟩ := SD_SendCommand_events bus CMD24 blockAddr SD_APP_CMD_INDICATOR w
  simp only [SD_WriteBlock] at hok ⊢
  generalize SD_SendCommand bus CMD24 blockAddr SD_APP_CMD_INDICATOR w = c at tcmd hst hok ⊢
  by_cases hc : c.1 ≠ SD_READY_STATE
  · rw [if_pos hc] at hok
    simp at hok
  rw [if_neg hc] at hok ⊢
  obtain ⟨pre, hpre, _⟩ := hst (by simpa [SD_READY_STATE] using hc)
  have td : (HAL_SPI_Transmit_DMA bus buffer SD_BLOCK_SIZE
      (SPI_SendByte bus SD_START_BLOCK_TOKEN c.2)).2.trace =
      c.2.trace ++ [Event.tx [0xFE], Event.txDMA buffer (HAL_SPI_Transmit_DMA bus buffer
        SD_BLOCK_SIZE (SPI_SendByte bus SD_START_BLOCK_TOKEN c.2)).1] := by
    simp [HAL_SPI_Transmit_DMA, SPI_SendByte, HAL_SPI_Transmit, SD_BLOCK_SIZE,
      SD_START_BLOCK_TOKEN, List.take_of_length_le (le_of_eq hlen)]
  generalize HAL_SPI_Transmit_DMA bus buffer SD_BLOCK_SIZE
    (SPI_SendByte bus SD_START_BLOCK_TOKEN c.2) = d at td hok ⊢
  by_cases hd : d.1 = false
  · rw [if_pos hd] at hok
    simp at hok
  rw [if_neg hd] at hok ⊢
  have hd1 : d.1 = true := by simpa using hd
  rw [hd1] at td
  rcases hwr : waitReady bus fuel d.2 with ⟨b, wp⟩
  rw [hwr] at hok
  cases b
  · simp at hok
  obtain ⟨n, tn⟩ := waitReady_events bus fuel d.2 (by rw [hwr])
  rw [hwr] at tn
  simp only at tn hok ⊢
  have tr2 : (SPI_ReceiveByte bus
      (SPI_SendByte bus SD_CRC_DUMMY_BYTE (SPI_SendByte bus SD_CRC_DUMMY_BYTE wp))).2.trace =
      wp.trace ++ [Event.tx [0xFF], Event.tx [0xFF], Event.rx (SPI_ReceiveByte bus
        (SPI_SendByte bus SD_CRC_DUMMY_BYTE (SPI_SendByte bus SD_CRC_DUMMY_BYTE wp))).1] := by
    simp [SPI_ReceiveByte, SPI_SendByte, HAL_SPI_Transmit, SD_CRC_DUMMY_BYTE]
  generalize SPI_ReceiveByte bus
    (SPI_SendByte bus SD_CRC_DUMMY_BYTE (SPI_SendByte bus SD_CRC_DUMMY_BYTE wp)) = r2
    at tr2 hok ⊢
  by_cases hrej : r2.1 &&& 0x1F ≠ SD_DATA_ACCEPTED_TOKEN
  · rw [if_pos hrej] at hok
    simp at hok
  rw [if_neg hrej] at hok ⊢
  obtain ⟨t, ht⟩ := busyWait_extends bus fuel r2.2
  rcases hbw : busyWait bus fuel r2.2 with ⟨b, w5⟩
  rw [hbw] at hok ht
  cases b
  · simp at hok
  simp only at ht ⊢
  refine ⟨pre, n, r2.1, t ++ [Event.cs GPIO_PIN_SET, Event.tx [0xFF]], ?_⟩
  simp only [SPI_SendByte, HAL_SPI_Transmit, sd_cs_deselect, HAL_GPIO_WritePin, ← ht, tr2, tn,
    td, tcmd, hpre, SD_DUMMY_BYTE, List.append_assoc]
  simp

/-- C13: every run of `SD_ReadBlock` that returns `SDCARD_OK` receives, after
the 512-byte DMA payload and before chip-select is released, exactly one byte
(not the two of a 16-bit checksum); every run of `SD_WriteBlock` that returns
`SDCARD_OK` transmits, after the DMA payload and before it reads the data
response, exactly the two fillers `0xFF, 0xFF`. -/
theorem checksum_width_asymmetry (bus : Bus σ) (fuel blockAddr : Nat) (buffer : List Nat)
    (w : World σ) (hlen : buffer.length = 512) :
    ((SD_ReadBlock bus fuel blockAddr w).1 = some SDCARD_OK →
        ∃ (pre toks : List Nat) (n c : Nat),
          (SD_ReadBlock bus fuel blockAddr w).2.trace =
              w.trace ++
                commandEvents (commandFrame CMD17 blockAddr SD_APP_CMD_INDICATOR)
                  (pre ++ [0x00]) ++
                toks.map Event.rx ++ [Event.rxDMA 512 true] ++
                (List.replicate n (Event.state false) ++ [Event.state true, Event.rx c]) ++
                [Event.cs GPIO_PIN_SET, Event.tx [0xFF]] ∧
            (rxBytes (List.replicate n (Event.state false) ++
              [Event.state true, Event.rx c])).length = 1 ∧
            (rxBytes (List.replicate n (Event.state false) ++
              [Event.state true, Event.rx c])).length ≠ 2) ∧
      ((SD_WriteBlock bus fuel blockAddr buffer w).1 = some SDCARD_OK →
        ∃ (pre : List Nat) (n r : Nat) (rest : List Event),
          (SD_WriteBlock bus fuel blockAddr buffer w).2.trace =
              w.trace ++
                commandEvents (commandFrame CMD24 blockAddr SD_APP_CMD_INDICATOR)
                  (pre ++ [0x00]) ++
                [Event.tx [0xFE], Event.txDMA buffer true] ++
                (List.replicate n (Event.state false) ++
                  [Event.state true, Event.tx [0xFF], Event.tx [0xFF]]) ++
                Event.rx r :: rest ∧
            txBytes (List.replicate n (Event.state false) ++
              [Event.state true, Event.tx [0xFF], Event.tx [0xFF]]) = [0xFF, 0xFF]) := by
  constructor
  · intro hok
    obtain ⟨pre, toks, n, c, htr, _, _⟩ := SD_ReadBlock_ok_events bus fuel blockAddr w hok
    have hrx : rxBytes (List.replicate n (Event.state false) ++
        [Event.state true, Event.rx c]) = [c] := by
      rw [rxBytes_append, rxBytes_replicate_state]
      rfl
    exact ⟨pre, toks, n, c, htr, by rw [hrx]; rfl, by rw [hrx]; simp⟩
  · intro hok
    obtain ⟨pre, n, r, rest, htr⟩ :=
      SD_WriteBlock_ok_events_to_response bus fuel blockAddr buffer w hlen hok
    refine ⟨pre, n, r, rest, htr, ?_⟩
    rw [txBytes_append, txBytes_replicate_state]
    rfl

theorem checksum_width_asymmetry_witness :
    (∃ (pre toks : List Nat) (n c : Nat),
        (SD_ReadBlock scriptBus 1 7 (World.start [0x00, 0xFF, 0xFE])).2.trace =
            (World.start [0x00, 0xFF, 0xFE]).trace ++
              commandEvents (commandFrame CMD17 7 SD_APP_CMD_INDICATOR) (pre ++ [0x00]) ++
              toks.map Event.rx ++ [Event.rxDMA 512 true] ++
              (List.replicate n (Event.state false) ++ [Event.state true, Event.rx c]) ++
              [Event.cs GPIO_PIN_SET, Event.tx [0xFF]] ∧
          (rxBytes (List.replicate n (Event.state false) ++
            [Event.state true, Event.rx c])).length = 1 ∧
          (rxBytes (List.replicate n (Event.state false) ++
            [Event.state true, Event.rx c])).length ≠ 2) ∧
      ∃ (pre : List Nat) (n r : Nat) (rest : List Event),
        (SD_WriteBlock scriptBus 2 7 (List.replicate 512 0xA5)
              (World.start [0x00, 0xE5, 0x00])).2.trace =
            (World.start [0x00, 0xE5, 0x00]).trace ++
              commandEvents (commandFrame CMD24 7 SD_APP_CMD_INDICATOR) (pre ++ [0x00]) ++
              [Event.tx [0xFE], Event.txDMA (List.replicate 512 0xA5) true] ++
              (List.replicate n (Event.state false) ++
                [Event.state true, Event.tx [0xFF], Event.tx [0xFF]]) ++
              Event.rx r :: rest ∧
          txBytes (List.replicate n (Event.state false) ++
            [Event.state true, Event.tx [0xFF], Event.tx [0xFF]]) = [0xFF, 0xFF] :=
  ⟨(checksum_width_asymmetry scriptBus 1 7 (List.replicate 512 0xA5)
      (World.start [0x00, 0xFF, 0xFE]) (List.length_replicate _ _)).1 (by rfl),
    (checksum_width_asymmetry scriptBus 2 7 (List.replicate 512 0xA5)
      (World.start [0x00, 0xE5, 0x00]) (List.length_replicate _ _)).2 (by rfl)⟩

/-! ## The op-condition loop has no bound -/

/-- While `ACMD41` is never answered with `0x00`, the loop uses up any fuel. -/
theorem opCondLoop_never_ready (bus : Bus σ) (fuel : Nat) (w : World σ)
    (hnever : ∀ n : Nat, (opCondPass bus (opCondWorld bus n w)).1 ≠ SD_READY_STATE) :
    opCondLoop bus fuel w = (false, opCondWorld bus fuel w) := by
  induction fuel generalizing w with
  | zero => rfl
  | succ fuel ih =>
    have h0 : (SD_SendCommand bus ACMD41 SD_HC_CAPABILITY_FLAG SD_APP_CMD_INDICATOR
        (SD_SendCommand bus CMD55 0 SD_APP_CMD_INDICATOR w).2).1 ≠ SD_READY_STATE := hnever 0
    have hstep : opCondLoop bus (fuel + 1) w = opCondLoop bus fuel (opCondPass bus w).2 := by
      simp only [opCondLoop]
      rw [if_pos h0]
      rfl
    rw [hstep, ih (opCondPass bus w).2 (fun n => hnever (n + 1))]
    rfl

theorem count_opCondOpcodes (k : Nat) : (opCondOpcodes k).count 0x69 = k := by
  induction k with
  | zero => rfl
  | succ k ih => simp [opCondOpcodes, ih]

/-- C14: on a bus that answers `CMD0` and `CMD8` with `0x01` and never answers
`ACMD41` with `0x00` (whatever else it answers, the `0xFF` of a silent card
included), `SD_Init` has not returned after any number `fuel` of passes through
the loop, and has by then sent `fuel` (`CMD55`, `ACMD41`) pairs; so for every
`N` it sends more than `N` pairs. -/
theorem SD_Init_op_condition_loop_unbounded (bus : Bus σ) (w w1 w2 : World σ)
    (h0 : SD_SendCommand bus CMD0 0 SD_CMD0_CRC
      (sendClocks bus SD_INIT_CLOCK_CYCLES (sd_cs_deselect bus w)) = (0x01, w1))
    (h8 : SD_SendCommand bus CMD8 SD_CMD8_CHECK_PATTERN SD_CMD8_CRC w1 = (0x01, w2))
    (hnever : ∀ n : Nat, (opCondPass bus (opCondWorld bus n w2)).1 ≠ SD_READY_STATE) :
    (∀ fuel : Nat, (SD_Init bus fuel w).1 = none ∧
        ∃ evs : List Event, (SD_Init bus fuel w).2.trace = w.trace ++ evs ∧
          opcodesOf evs = 0x40 :: 0x48 :: opCondOpcodes fuel ∧
          (opcodesOf evs).count 0x69 = fuel) ∧
      ∀ N : Nat, ∃ (fuel : Nat) (evs : List Event),
        (SD_Init bus fuel w).1 = none ∧ (SD_Init bus fuel w).2.trace = w.trace ++ evs ∧
          N < (opcodesOf evs).count 0x69 := by
  have hall : ∀ fuel : Nat, (SD_Init bus fuel w).1 = none ∧
      ∃ evs : List Event, (SD_Init bus fuel w).2.trace = w.trace ++ evs ∧
        opcodesOf evs = 0x40 :: 0x48 :: opCondOpcodes fuel ∧
        (opcodesOf evs).count 0x69 = fuel := by
    intro fuel
    have hloop := opCondLoop_never_ready bus fuel w2 hnever
    have hrun : SD_Init bus fuel w = (none, opCondWorld bus fuel w2) := by
      simp [SD_Init, h0, h8, hloop, SD_IDLE_STATE]
    obtain ⟨x0, t0, _⟩ := SD_SendCommand_events bus CMD0 0 SD_CMD0_CRC
      (sendClocks bus SD_INIT_CLOCK_CYCLES (sd_cs_deselect bus w))
    obtain ⟨x8, t8, _⟩ := SD_SendCommand_events bus CMD8 SD_CMD8_CHECK_PATTERN SD_CMD8_CRC w1
    rw [h0] at t0
    rw [h8] at t8
    simp only at t0 t8
    obtain ⟨its, hits⟩ := opCondLoop_events bus fuel w2
    rw [hloop] at hits
    rcases hits with ⟨_, hlen, htr⟩ | ⟨hb, _⟩
    · simp only at htr
      refine ⟨by rw [hrun], [Event.cs GPIO_PIN_SET] ++ List.replicate 10 (Event.tx [0xFF]) ++
        commandEvents (commandFrame CMD0 0 SD_CMD0_CRC) x0 ++
        commandEvents (commandFrame CMD8 SD_CMD8_CHECK_PATTERN SD_CMD8_CRC) x8 ++
        opCondEvents its, ?_, ?_⟩
      · rw [hrun]
        simp only [htr, t8, t0, sendClocks_trace, sd_cs_deselect, HAL_GPIO_WritePin,
          SD_INIT_CLOCK_CYCLES, List.append_assoc]
      · have hops : opcodesOf ([Event.cs GPIO_PIN_SET] ++ List.replicate 10 (Event.tx [0xFF]) ++
            commandEvents (commandFrame CMD0 0 SD_CMD0_CRC) x0 ++
            commandEvents (commandFrame CMD8 SD_CMD8_CHECK_PATTERN SD_CMD8_CRC) x8 ++
            opCondEvents its) = 0x40 :: 0x48 :: opCondOpcodes fuel := by
          simp only [opcodesOf_append, opcodesOf_opCondEvents, hlen]
          simp only [opcodesOf, framesOf_commandEvents, framesOf_replicate_filler]
          simp [framesOf, commandFrame, CMD0, CMD8]
        refine ⟨hops, ?_⟩
        rw [hops]
        simp [count_opCondOpcodes]
    · simp at hb
  refine ⟨hall, fun N => ?_⟩
  obtain ⟨hnone, evs, htr, _, hcount⟩ := hall (N + 1)
  exact ⟨N + 1, evs, hnone, htr, by omega⟩

/-- On the scripted bus with its script used up, every command times out. -/
theorem SD_SendCommand_scriptBus_nil (cmd arg crc : Nat) (tr : List Event) :
    ∃ tr' : List Event, SD_SendCommand scriptBus cmd arg crc ⟨[], tr⟩ = (0xFF, ⟨[], tr'⟩) := by
  have hframe : afterFrame scriptBus cmd arg crc ⟨[], tr⟩ =
      ⟨[], (afterFrame scriptBus cmd arg crc ⟨[], tr⟩).trace⟩ := rfl
  have hall : ∀ x ∈ (receiveMany scriptBus SD_CMD_RESPONSE_ATTEMPTS
      (afterFrame scriptBus cmd arg crc ⟨[], tr⟩)).1, x &&& 0x80 ≠ 0 := by
    rw [hframe, receiveMany_scriptBus_nil]
    intro x hx
    rw [List.eq_of_mem_replicate hx]
    decide
  rw [SD_SendCommand_eq, pollResponse_timeout scriptBus _ _ hall, hframe,
    receiveMany_scriptBus_nil]
  exact ⟨_, rfl⟩

/-- On the scripted bus with its script used up, a pass of the loop gets the
timeout sentinel and leaves the script empty. -/
theorem opCondPass_scriptBus_nil (tr : List Event) :
    ∃ tr' : List Event, opCondPass scriptBus ⟨[], tr⟩ = (0xFF, ⟨[], tr'⟩) := by
  obtain ⟨t1, h1⟩ := SD_SendCommand_scriptBus_nil CMD55 0 SD_APP_CMD_INDICATOR tr
  obtain ⟨t2, h2⟩ := SD_SendCommand_scriptBus_nil ACMD41 SD_HC_CAPABILITY_FLAG
    SD_APP_CMD_INDICATOR t1
  refine ⟨t2, ?_⟩
  simp only [opCondPass, h1, h2]

theorem opCondPass_scriptBus_dev (w : World (List Nat)) (hw : w.dev = []) :
    (opCondPass scriptBus w).1 = 0xFF ∧ (opCondPass scriptBus w).2.dev = [] := by
  obtain ⟨d, tr⟩ := w
  simp only at hw
  subst hw
  obtain ⟨t, h⟩ := opCondPass_scriptBus_nil tr
  rw [h]
  exact ⟨rfl, rfl⟩

theorem opCondWorld_succ (bus : Bus σ) (n : Nat) (w : World σ) :
    opCondWorld bus (n + 1) w = opCondWorld bus n (opCondPass bus w).2 := rfl

theorem opCondWorld_scriptBus_dev (n : Nat) (w : World (List Nat)) (hw : w.dev = []) :
    (opCondWorld scriptBus n w).dev = [] := by
  induction n generalizing w with
  | zero => exact hw
  | succ n ih =>
    rw [opCondWorld_succ]
    exact ih _ (opCondPass_scriptBus_dev w hw).2

theorem opCondPass_scriptBus_never_ready (n : Nat) (w : World (List Nat)) (hw : w.dev = []) :
    (opCondPass scriptBus (opCondWorld scriptBus n w)).1 ≠ SD_READY_STATE := by
  rw [(opCondPass_scriptBus_dev _ (opCondWorld_scriptBus_dev n w hw)).1]
  decide

theorem SD_Init_op_condition_loop_unbounded_witness :
    (∀ fuel : Nat, (SD_Init scriptBus fuel (World.start [0x01, 0x01])).1 = none ∧
        ∃ evs : List Event,
          (SD_Init scriptBus fuel (World.start [0x01, 0x01])).2.trace =
            (World.start [0x01, 0x01]).trace ++ evs ∧
          opcodesOf evs = 0x40 :: 0x48 :: opCondOpcodes fuel ∧
          (opcodesOf evs).count 0x69 = fuel) ∧
      ∀ N : Nat, ∃ (fuel : Nat) (evs : List Event),
        (SD_Init scriptBus fuel (World.start [0x01, 0x01])).1 = none ∧
          (SD_Init scriptBus fuel (World.start [0x01, 0x01])).2.trace =
            (World.start [0x01, 0x01]).trace ++ evs ∧
          N < (opcodesOf evs).count 0x69 :=
  SD_Init_op_condition_loop_unbounded scriptBus (World.start [0x01, 0x01])
    ⟨[0x01], _⟩ ⟨[], _⟩ rfl rfl (fun n => opCondPass_scriptBus_never_ready n _ rfl)

end SdCard

namespace UartCli

/-! ## `extract_number_from_string` -/

theorem isdigit_bounds {c : Nat} (h : isdigit c = true) : 0x30 ≤ c ∧ c ≤ 0x39 := by
  simpa [isdigit] using h

/-- `strtol` called on a digit: the value of the digit run, clamped to
`LONG_MAX`, and the length of the run. -/
theorem strtol_of_digit (d : Nat) (tl : List Nat) (hd : isdigit d = true) :
    strtol (d :: tl) =
      (min LONG_MAX (digitsValue ((d :: tl).takeWhile isdigit) : Int),
        ((d :: tl).takeWhile isdigit).length) := by
  obtain ⟨h1, h2⟩ := isdigit_bounds hd
  have hsp : isspace d = false := by
    simp only [isspace, Bool.or_eq_false_iff, Bool.and_eq_false_iff, decide_eq_false_iff_not]
    omega
  have hminus : d ≠ 0x2D := by omega
  have hplus : d ≠ 0x2B := by omega
  have hnonneg : LONG_MIN ≤ min LONG_MAX (digitsValue (d :: tl.takeWhile isdigit) : Int) := by
    have : (0 : Int) ≤ (digitsValue (d :: tl.takeWhile isdigit) : Int) := Int.natCast_nonneg _
    simp only [LONG_MIN, LONG_MAX]
    omega
  simp [strtol, hsp, hd, hminus, hplus, max_eq_right hnonneg]

/-- From a string that does not start with a digit, and whose first digit run
has a value a `long` can hold, the loop returns what the declaration comment
promises. -/
theorem extractLoop_eq_firstIntegerFound (s : List Nat) (pos length : Nat)
    (hhead : isdigit (s.headD 0) = false)
    (hfits : (firstIntegerFound s pos length).1 ≤ LONG_MAX) :
    extractLoop s pos length = firstIntegerFound s pos length := by
  induction s generalizing pos with
  | nil => rfl
  | cons c tl ih =>
    have hc : isdigit c = false := by simpa using hhead
    simp only [extractLoop, firstIntegerFound, hc, Bool.false_eq_true, if_false] at hfits ⊢
    by_cases hz : c = 0
    · simp [hz]
    · simp only [hz, if_false] at hfits ⊢
      cases tl with
      | nil => simp [isdigit, extractLoop, firstIntegerFound]
      | cons d tl' =>
        by_cases hd : isdigit d = true
        · have hd0 : d ≠ 0 := by
            have := (isdigit_bounds hd).1
            omega
          simp only [firstIntegerFound, hd0, hd, if_false, if_true] at hfits
          simp only [List.headD_cons, hd, if_true, strtol_of_digit d tl' hd, firstIntegerFound,
            hd0, if_false, min_eq_right hfits]
        · have hd' : isdigit d = false := by simpa using hd
          simp only [List.headD_cons, hd', Bool.false_eq_true, if_false]
          exact ih (pos + 1) (by simpa using hd') hfits

/-- C15 (the code at the failing inputs): the loop advances `follower` before
it tests the character, so a digit at index 0 is never seen.  On `"12 34"` the
function returns `2` with `*length = 2`, where the first integer found is
`12`; on `"5"` it returns `LONG_MAX` and leaves `*length` as it was, where the
first integer found is `5` with one character consumed. -/
theorem extract_number_from_string_skips_index_zero :
    extract_number_from_string [0x31, 0x32, 0x20, 0x33, 0x34] 0 = (2, 2) ∧
      firstIntegerFound [0x31, 0x32, 0x20, 0x33, 0x34] 0 0 = (12, 2) ∧
      extract_number_from_string [0x35] 7 = (LONG_MAX, 7) ∧
      firstIntegerFound [0x35] 0 7 = (5, 1) := by
  decide

/-! ## `get_command_input` -/

set_option maxRecDepth 20000 in
/-- C16 (the code at the failing inputs): a `BACK_SPACE` on an empty line
takes `index` from `0` to `2 ^ 32 - 1`, and the `ENTER` that follows writes at
that index; one hundred ordinary characters are stored at indices `0` to `99`
and the `ENTER` that follows writes at index `100`.  Both writes are outside
`[0, MAX_CMD_LEN)`. -/
theorem get_command_input_writes_out_of_bounds :
    (get_command_input [BACK_SPACE, ENTER]).writes = [(0, 0), (4294967295, 0)] ∧
      ¬ (4294967295 < MAX_CMD_LEN) ∧
      (get_command_input (List.replicate 100 0x61 ++ [ENTER])).writes.getLast? =
        some (100, 0) ∧
      ¬ (100 < MAX_CMD_LEN) := by
  decide

end UartCli
